import Mathlib

/-!
Verification development for the SurfManager core: the process-termination
controller (`process_killer.py`) and the cancellable transfer workers
(`workers.py`).

The Python source is shallowly embedded: each stateful loop becomes a pure
Lean function over explicit inputs; interactions with the operating system
(process table, psutil calls, the filesystem) are supplied as oracle
parameters, and the observable behaviour (emitted Qt signals, log lines,
copy and delete effects) is collected into explicit traces.  Python float
arithmetic in the progress computation (`int((i+1)/total * width)`) is
modelled as exact natural-number floor division, which agrees with the
float computation on the monotonicity and range facts proved here.
-/

/-! ## Process killer: `ProcessKiller.kill_process`

The psutil interactions of one `kill_process` call are summarised by an
oracle `ProcBeh` recording what each psutil call would do: the initial
`is_running` answer, whether `terminate()` / `kill()` raise
`NoSuchProcess` or `AccessDenied`, and whether each `wait` returns within
its timeout or raises `TimeoutExpired`.  The source returns a `Bool` and
sends the human-readable text to the log callback; the embedding folds
that final decisive log message into the second component of the result,
so the observable outcome is the pair (returned bool, final message). -/

inductive PsStep where
  | ok
  | noSuchProcess
  | accessDenied
deriving DecidableEq, Repr

inductive WaitRes where
  | exited
  | timedOut
deriving DecidableEq, Repr

structure ProcBeh where
  pname : String
  pid : Nat
  running0 : Bool
  termRes : PsStep
  waitGrace : WaitRes
  killRes : PsStep
  waitForce : WaitRes
deriving DecidableEq, Repr

def kill_process (b : ProcBeh) : Bool × String :=
  if b.running0 = false then
    (true, "[OK] " ++ b.pname ++ " (PID " ++ toString b.pid ++ ") already terminated")
  else
    match b.termRes with
    | PsStep.noSuchProcess => (true, "[OK] " ++ b.pname ++ " no longer exists")
    | PsStep.accessDenied => (false, "[ERROR] Access denied: " ++ b.pname)
    | PsStep.ok =>
      match b.waitGrace with
      | WaitRes.exited => (true, "[OK] " ++ b.pname ++ " terminated gracefully")
      | WaitRes.timedOut =>
        match b.killRes with
        | PsStep.noSuchProcess => (true, "[OK] " ++ b.pname ++ " no longer exists")
        | PsStep.accessDenied => (false, "[ERROR] Access denied: " ++ b.pname)
        | PsStep.ok =>
          match b.waitForce with
          | WaitRes.exited => (true, "[OK] " ++ b.pname ++ " force killed")
          | WaitRes.timedOut => (false, "[ERROR] Failed to kill " ++ b.pname)

/-! ## Process killer: `ProcessKiller.kill_all`

`kill_all` is embedded against three oracles: `queries n` is the result of
the n-th `get_running_processes` call made by this `kill_all` invocation
(a list of pids), `killOk i` the boolean result of the i-th
`kill_process` call of the first round, and `forceOk i` whether the i-th
direct force-kill of the retry round succeeds (its `kill`/`wait` pair
does not raise).  Side effects are recorded in a trace; sleep durations
are in milliseconds. -/

inductive KAEffect where
  | queryE (pids : List Nat)
  | gracefulKillE (pid : Nat) (ok : Bool)
  | forceKillE (pid : Nat) (ok : Bool)
  | sleepE (ms : Nat)
deriving DecidableEq, Repr

def kill_all (queries : Nat → List Nat) (killOk forceOk : Nat → Bool) :
    (Bool × String) × List KAEffect :=
  let running := queries 0
  if running = [] then
    ((true, "No processes running"), [KAEffect.queryE []])
  else
    let graceEvs := running.enum.map (fun p => KAEffect.gracefulKillE p.2 (killOk p.1))
    let killed1 := (List.range running.length).countP killOk
    let remaining := queries 1
    let trace1 := KAEffect.queryE running :: graceEvs ++ [KAEffect.sleepE 500, KAEffect.queryE remaining]
    if remaining = [] then
      ((true, "Killed " ++ toString killed1 ++ " process(es)"), trace1)
    else
      let forceEvs := remaining.enum.map (fun p => KAEffect.forceKillE p.2 (forceOk p.1))
      let killed2 := killed1 + (List.range remaining.length).countP forceOk
      let final := queries 2
      let trace2 := trace1 ++ forceEvs ++ [KAEffect.sleepE 500, KAEffect.queryE final]
      if final = [] then
        ((true, "Killed " ++ toString killed2 ++ " process(es)"), trace2)
      else
        ((false, "Failed to kill " ++ toString final.length ++ " process(es)"), trace2)

/-! ## Process killer: `ProcessKiller.smart_close`

The retry loop of `smart_close` is embedded with two oracles: `runQ i` is
the boolean result of the i-th top-level running check the loop itself
performs (`is_running` for each attempt, and the final
`get_running_processes` nonemptiness check after retries are exhausted),
and `ka i` the success flag returned by the `kill_all` call of attempt
`i + 1` (whose own internal queries are abstracted behind that flag).
`fuel` counts the attempts remaining, `idx` the attempts already made. -/

inductive SCEffect where
  | checkRunningE (r : Bool)
  | killAllE (ok : Bool)
  | finalQueryE (r : Bool)
  | sleepE (ms : Nat)
deriving DecidableEq, Repr

def smartCloseLoop (app : String) (total : Nat) (runQ ka : Nat → Bool) :
    Nat → Nat → (Bool × String) × List SCEffect
  | 0, idx =>
    if runQ idx then
      ((false, "Failed to close " ++ app ++ " after " ++ toString total ++ " attempts"),
        [SCEffect.finalQueryE true])
    else
      ((true, app ++ " closed after retries"),
        [SCEffect.finalQueryE false, SCEffect.sleepE 3000])
  | fuel + 1, idx =>
    if runQ idx = false then
      ((true, app ++ " is not running"),
        [SCEffect.checkRunningE false, SCEffect.sleepE 2000])
    else if ka idx then
      ((true, app ++ " closed"),
        [SCEffect.checkRunningE true, SCEffect.killAllE true, SCEffect.sleepE 3000])
    else
      let r := smartCloseLoop app total runQ ka fuel (idx + 1)
      (r.1, SCEffect.checkRunningE true :: SCEffect.killAllE false ::
        (if fuel = 0 then [] else [SCEffect.sleepE 2000]) ++ r.2)

def smart_close (app : String) (maxRetries : Nat) (runQ ka : Nat → Bool) :
    (Bool × String) × List SCEffect :=
  smartCloseLoop app maxRetries runQ ka maxRetries 0

/-! ## Process killer: `ProcessKiller.get_running_processes`

The cache is embedded as an association list from sorted name lists to
cached handle lists (pid, image name pairs), together with the single
process-wide `_cache_expiry` timestamp of the source (milliseconds).  One
call takes the current time, a snapshot of the OS process table, and an
aliveness oracle for the cached handles; the third component of the
result records whether the call performed a fresh OS enumeration. -/

def isPrefixChars : List Char → List Char → Bool
  | [], _ => true
  | _ :: _, [] => false
  | a :: as, b :: bs => a == b && isPrefixChars as bs

def containsChars (needle : List Char) : List Char → Bool
  | [] => needle.isEmpty
  | c :: tl => isPrefixChars needle (c :: tl) || containsChars needle tl

def lowerChars (s : String) : List Char := s.data.map Char.toLower

def nameMatches (targets : List String) (procName : String) : Bool :=
  targets.any (fun t => containsChars (lowerChars t) (lowerChars procName))

def insertSorted (x : String) : List String → List String
  | [] => [x]
  | y :: t => if x ≤ y then x :: y :: t else y :: insertSorted x t

def sortKey (l : List String) : List String := l.foldr insertSorted []

def lookupCache (c : List (List String × List (Nat × String))) (k : List String) :
    Option (List (Nat × String)) :=
  match c with
  | [] => none
  | (k0, v) :: rest => if k0 = k then some v else lookupCache rest k

def storeCache (c : List (List String × List (Nat × String))) (k : List String)
    (v : List (Nat × String)) : List (List String × List (Nat × String)) :=
  match c with
  | [] => [(k, v)]
  | (k0, v0) :: rest => if k0 = k then (k, v) :: rest else (k0, v0) :: storeCache rest k v

structure PKCache where
  cache : List (List String × List (Nat × String))
  cacheExpiry : Nat
deriving DecidableEq, Repr

def pkEnumerate (names : List String) (now : Nat) (procTable : List (Nat × String))
    (st : PKCache) : List (Nat × String) × PKCache × Bool :=
  let running := procTable.filter (fun p => nameMatches names p.2)
  if running = [] then (running, st, true)
  else (running,
    { cache := storeCache st.cache (sortKey names) running, cacheExpiry := now + 2000 },
    true)

def get_running_processes (names : List String) (now : Nat)
    (procTable : List (Nat × String)) (aliveNow : Nat → Bool) (st : PKCache) :
    List (Nat × String) × PKCache × Bool :=
  if now < st.cacheExpiry then
    match lookupCache st.cache (sortKey names) with
    | some cached =>
      let valid := cached.filter (fun p => aliveNow p.1)
      if valid = [] then pkEnumerate names now procTable st
      else (valid, st, false)
    | none => pkEnumerate names now procTable st
  else pkEnumerate names now procTable st

/-! Concrete cache scenario used to settle the per-entry-expiry part of the
cache claim: key ["a"] is stored at time 0, key ["b"] at time 1500 (which
moves the single process-wide expiry to 3500), and key ["a"] is queried
again at time 2500 — more than 2 seconds after its own creation. -/

def c9stA : List (Nat × String) × PKCache × Bool :=
  get_running_processes ["a"] 0 [(1, "a")] (fun _ => true) ⟨[], 0⟩

def c9stB : List (Nat × String) × PKCache × Bool :=
  get_running_processes ["b"] 1500 [(2, "b")] (fun _ => true) c9stA.2.1

def c9q3 : List (Nat × String) × PKCache × Bool :=
  get_running_processes ["a"] 2500 [] (fun _ => true) c9stB.2.1

/-! ## Transfer workers: `BackupWorker.run` and `RestoreWorker.run`

The two worker `run` methods are embedded as pure functions producing the
ordered list of observable events of one execution: `progress` and `log`
signal emissions, the terminal `finished` signal, the filesystem copy and
delete effects, and a `check` marker for every read of the cooperative
cancellation token.  The filesystem is an oracle `FS`; `copyFails p`
returns the message of the exception a copy from source path `p` would
raise (`none` when the copy succeeds), and `deletePermError p` says
whether deleting `p` raises `PermissionError`.  The source's distinction
between `copytree` and `copy2` (and between `rmtree` and `remove`) only
selects between primitives with the same observable effect here, so it is
not represented.  The cancellation token, which the caller can only ever
set, is embedded as a countdown: `some k` means the token becomes (and
stays) true at the k-th token read performed by the run, `none` means it
is never set. -/

inductive Event where
  | progress (pct : Nat) (msg : String)
  | log (msg : String)
  | finished (ok : Bool) (msg : String)
  | copy (src dst : String)
  | delete (path : String)
  | check
deriving DecidableEq, Repr

inductive Outcome where
  | ok
  | returned
  | exn (msg : String)
deriving DecidableEq, Repr

structure FS where
  pathExists : String → Bool
  listDir : String → List String
  copyFails : String → Option String
  deletePermError : String → Bool

structure TransferItem where
  path : String
  optional : Bool
deriving DecidableEq, Repr

structure BackupSpec where
  sourcePath : String
  backupFolder : String
  backupItems : List TransferItem
  addonPaths : List String
deriving DecidableEq, Repr

structure RestoreSpec where
  backupFolder : String
  targetPath : String
  addonPaths : List String
deriving DecidableEq, Repr

def joinPath (a b : String) : String := a ++ "/" ++ b

def basenameAux : List Char → List Char → List Char
  | cur, [] => cur.reverse
  | cur, c :: tl => if c = '/' then basenameAux [] tl else basenameAux (c :: cur) tl

def basename (p : String) : String := String.mk (basenameAux [] p.data)

def cancelNow : Option Nat → Bool
  | some 0 => true
  | _ => false

def cancelStep : Option Nat → Option Nat
  | none => none
  | some n => some (n - 1)

/-- Message of the Python `UnboundLocalError` raised when the backup addon
loop's progress emission reads `addon_name` before any assignment (the
exact interpreter wording is version dependent; only the failure itself
matters to the claims). -/
def unboundAddonNameMsg : String :=
  "local variable addon_name referenced before assignment"

/-- The shared shape of every worker loop: one cancellation-token read per
element (emitting `check` when it reads false, or the terminal `Cancelled`
failure when it reads true), then the per-element step, which may finish
normally or raise.  `σ` carries loop-local mutable state (only the
`addon_name` binding uses it); the returned `Option Nat` is the remaining
cancellation countdown. -/
def workerLoop {σ α : Type} (step : Nat → σ → α → List Event × σ × Outcome) :
    List α → Nat → σ → Option Nat → List Event × Option Nat × Outcome
  | [], _, _, cl => ([], cl, Outcome.ok)
  | x :: rest, i, s, cl =>
    if cancelNow cl then ([Event.finished false "Cancelled"], cl, Outcome.returned)
    else
      let ev := (step i s x).1
      let s2 := (step i s x).2.1
      let o := (step i s x).2.2
      if o = Outcome.ok then
        let r := workerLoop step rest (i + 1) s2 (cancelStep cl)
        (Event.check :: ev ++ r.1, r.2.1, r.2.2)
      else (Event.check :: ev, cancelStep cl, o)

def backupItemStep (fs : FS) (srcRoot dstRoot : String) (total : Nat)
    (i : Nat) (_ : Unit) (it : TransferItem) : List Event × Unit × Outcome :=
  if it.path = "" then ([], (), Outcome.ok)
  else
    let src := joinPath srcRoot it.path
    let dst := joinPath dstRoot it.path
    let pev := Event.progress (30 + (i + 1) * 50 / total) ("Copying " ++ it.path ++ "...")
    if fs.pathExists src then
      match fs.copyFails src with
      | some m => ([], (), Outcome.exn m)
      | none => ([Event.copy src dst, Event.log ("  [OK] " ++ it.path), pev], (), Outcome.ok)
    else if it.optional then ([pev], (), Outcome.ok)
    else ([Event.log ("  [SKIP] " ++ it.path ++ " (not found)"), pev], (), Outcome.ok)

def backupFallbackStep (fs : FS) (srcRoot dstRoot : String) (total : Nat)
    (i : Nat) (_ : Unit) (name : String) : List Event × Unit × Outcome :=
  let src := joinPath srcRoot name
  let dst := joinPath dstRoot name
  match fs.copyFails src with
  | some m => ([], (), Outcome.exn m)
  | none =>
    ([Event.copy src dst,
      Event.progress (30 + (i + 1) * 50 / total) ("Copying " ++ name ++ "...")], (), Outcome.ok)

/-- One backup addon iteration.  `nm` is the current binding of the local
variable `addon_name`: it is assigned only inside the existence branch, so
when the addon path is missing the trailing progress emission reads the
stale binding — and raises when there is none (the claimed C10 bug). -/
def backupAddonStep (fs : FS) (addonDir : String) (total : Nat)
    (j : Nat) (nm : Option String) (a : String) : List Event × Option String × Outcome :=
  if fs.pathExists a then
    let an := basename a
    let dst := joinPath addonDir an
    let copyEv :=
      match fs.copyFails a with
      | none => [Event.copy a dst, Event.log ("  [OK] Addon: " ++ an)]
      | some m => [Event.log ("  [FAIL] Addon: " ++ an ++ " - " ++ m)]
    (copyEv ++ [Event.progress (80 + (j + 1) * 15 / total) ("Addon: " ++ an ++ "...")],
      some an, Outcome.ok)
  else
    match nm with
    | none => ([], nm, Outcome.exn unboundAddonNameMsg)
    | some an =>
      ([Event.progress (80 + (j + 1) * 15 / total) ("Addon: " ++ an ++ "...")], nm, Outcome.ok)

def restoreDeleteStep (fs : FS) (target : String)
    (_ : Nat) (_ : Unit) (name : String) : List Event × Unit × Outcome :=
  let p := joinPath target name
  if fs.deletePermError p then
    ([Event.log ("  [WARN] Cannot delete: " ++ name)], (), Outcome.ok)
  else ([Event.delete p], (), Outcome.ok)

def restoreItemStep (fs : FS) (srcRoot dstRoot : String) (total : Nat)
    (i : Nat) (_ : Unit) (name : String) : List Event × Unit × Outcome :=
  let src := joinPath srcRoot name
  let dst := joinPath dstRoot name
  match fs.copyFails src with
  | some m => ([], (), Outcome.exn m)
  | none =>
    ([Event.copy src dst,
      Event.progress (30 + (i + 1) * 50 / total) ("Restoring " ++ name ++ "...")], (), Outcome.ok)

/-- One restore addon iteration: `addon_name` is assigned before use here,
so no unbound read can occur; the whole delete-then-copy body is inside a
try/except whose failures (modelled by `copyFails` on the archived addon
source) only produce a FAIL log line. -/
def restoreAddonStep (fs : FS) (addonDir : String) (total : Nat)
    (j : Nat) (_ : Unit) (a : String) : List Event × Unit × Outcome :=
  let an := basename a
  let asrc := joinPath addonDir an
  let ev :=
    if fs.pathExists asrc then
      match fs.copyFails asrc with
      | none =>
        (if fs.pathExists a then [Event.delete a] else []) ++
          [Event.copy asrc a, Event.log ("  [OK] Addon restored: " ++ an)]
      | some m => [Event.log ("  [FAIL] Addon: " ++ an ++ " - " ++ m)]
    else []
  (ev ++ [Event.progress (80 + (j + 1) * 15 / total) ("Addon: " ++ an ++ "...")], (), Outcome.ok)

/-- Item phase of `BackupWorker.run`: the declared-items loop, or the
full-directory fallback when the item list is empty, each preceded by its
header log line. -/
def backupPhase1 (fs : FS) (sp : BackupSpec) (cl : Option Nat) :
    List Event × Option Nat × Outcome :=
  if sp.backupItems ≠ [] then
    let total := sp.backupItems.length
    let r := workerLoop (backupItemStep fs sp.sourcePath sp.backupFolder total)
      sp.backupItems 0 () cl
    (Event.log ("Backing up " ++ toString total ++ " items...") :: r.1, r.2.1, r.2.2)
  else
    let items := fs.listDir sp.sourcePath
    let total := items.length
    let r := workerLoop (backupFallbackStep fs sp.sourcePath sp.backupFolder total)
      items 0 () cl
    (Event.log ("Backing up " ++ toString total ++ " items (full)...") :: r.1, r.2.1, r.2.2)

/-- Addon phase of `BackupWorker.run`: skipped when no addon paths are
configured; the `addon_name` binding starts unassigned. -/
def backupPhase2 (fs : FS) (sp : BackupSpec) (cl : Option Nat) : List Event × Outcome :=
  if sp.addonPaths ≠ [] then
    let n := sp.addonPaths.length
    let addonDir := joinPath sp.backupFolder "_addons"
    let r := workerLoop (backupAddonStep fs addonDir n) sp.addonPaths 0 none cl
    (Event.log ("Backing up " ++ toString n ++ " addon folder(s)...") :: r.1, r.2.2)
  else ([], Outcome.ok)

/-- `BackupWorker.run` up to (but not including) the top-level exception
handler: the emitted events together with how the body ended. -/
def backup_run_core (fs : FS) (sp : BackupSpec) (cl : Option Nat) : List Event × Outcome :=
  let p1 := backupPhase1 fs sp cl
  if p1.2.2 = Outcome.ok then
    let p2 := backupPhase2 fs sp p1.2.1
    if p2.2 = Outcome.ok then
      (p1.1 ++ p2.1 ++ [Event.progress 100 "Backup complete!",
        Event.finished true "Backup complete"], Outcome.ok)
    else (p1.1 ++ p2.1, p2.2)
  else (p1.1, p1.2.2)

/-- `BackupWorker.run`: the top-level handler turns an escaped exception
into the terminal failure signal. -/
def backup_run (fs : FS) (sp : BackupSpec) (cl : Option Nat) : List Event :=
  match (backup_run_core fs sp cl).2 with
  | Outcome.exn m => (backup_run_core fs sp cl).1 ++ [Event.finished false m]
  | _ => (backup_run_core fs sp cl).1

/-- Pre-copy deletion phase of `RestoreWorker.run`: iterates over every
entry directly under the destination root (when it exists). -/
def restorePhase0 (fs : FS) (sp : RestoreSpec) (cl : Option Nat) :
    List Event × Option Nat × Outcome :=
  if fs.pathExists sp.targetPath then
    workerLoop (restoreDeleteStep fs sp.targetPath) (fs.listDir sp.targetPath) 0 () cl
  else ([], cl, Outcome.ok)

/-- Copy phase of `RestoreWorker.run`: every entry of the backup folder
except the reserved `_addons` subfolder. -/
def restorePhase1 (fs : FS) (sp : RestoreSpec) (cl : Option Nat) :
    List Event × Option Nat × Outcome :=
  let items := (fs.listDir sp.backupFolder).filter (fun f => f ≠ "_addons")
  workerLoop (restoreItemStep fs sp.backupFolder sp.targetPath items.length) items 0 () cl

/-- Addon phase of `RestoreWorker.run`: runs only when the addon archive
folder exists and addon paths are configured. -/
def restorePhase2 (fs : FS) (sp : RestoreSpec) (cl : Option Nat) : List Event × Outcome :=
  let addonDir := joinPath sp.backupFolder "_addons"
  if fs.pathExists addonDir ∧ sp.addonPaths ≠ [] then
    let n := sp.addonPaths.length
    let r := workerLoop (restoreAddonStep fs addonDir n) sp.addonPaths 0 () cl
    (Event.log ("Restoring " ++ toString n ++ " addon folder(s)...") :: r.1, r.2.2)
  else ([], Outcome.ok)

/-- `RestoreWorker.run` up to the top-level exception handler. -/
def restore_run_core (fs : FS) (sp : RestoreSpec) (cl : Option Nat) : List Event × Outcome :=
  let p0 := restorePhase0 fs sp cl
  let pre := Event.progress 10 "Removing existing data..." :: p0.1
  if p0.2.2 = Outcome.ok then
    let p1 := restorePhase1 fs sp p0.2.1
    let pre1 := pre ++ Event.progress 30 "Restoring data..." :: p1.1
    if p1.2.2 = Outcome.ok then
      let p2 := restorePhase2 fs sp p1.2.1
      if p2.2 = Outcome.ok then
        (pre1 ++ p2.1 ++ [Event.progress 100 "Restore complete!",
          Event.finished true "Restore complete"], Outcome.ok)
      else (pre1 ++ p2.1, p2.2)
    else (pre1, p1.2.2)
  else (pre, p0.2.2)

def restore_run (fs : FS) (sp : RestoreSpec) (cl : Option Nat) : List Event :=
  match (restore_run_core fs sp cl).2 with
  | Outcome.exn m => (restore_run_core fs sp cl).1 ++ [Event.finished false m]
  | _ => (restore_run_core fs sp cl).1

/-! Observation helpers over event traces. -/

def pcts (tr : List Event) : List Nat :=
  tr.filterMap (fun e => match e with | Event.progress p _ => some p | _ => none)

def isCheckEv : Event → Bool
  | Event.check => true
  | _ => false

def isFinishedEv : Event → Bool
  | Event.finished _ _ => true
  | _ => false

def checkCount (tr : List Event) : Nat := tr.countP isCheckEv

def finishedCount (tr : List Event) : Nat := tr.countP isFinishedEv

/-- The prefix of a trace strictly before its (k+1)-th cancellation-token
read: the events a run emits before the read at which a token set at
countdown k would be detected. -/
def truncBeforeCheck : Nat → List Event → List Event
  | _, [] => []
  | k, e :: tl =>
    if e = Event.check then
      match k with
      | 0 => []
      | Nat.succ k2 => Event.check :: truncBeforeCheck k2 tl
    else e :: truncBeforeCheck k tl

/-! Concrete fixtures used to evaluate the worker theorems on closed
inputs: a source with one existing item, one missing required item and one
existing addon; a variant whose first addon path is missing; and a restore
setup with one stale entry under the destination. -/

def wfsB : FS where
  pathExists := fun p => p = "S/u" || p = "A1"
  listDir := fun _ => []
  copyFails := fun _ => none
  deletePermError := fun _ => false

def wspB : BackupSpec where
  sourcePath := "S"
  backupFolder := "B"
  backupItems := [⟨"u", false⟩, ⟨"miss", false⟩]
  addonPaths := ["A1"]

def wspB10 : BackupSpec where
  sourcePath := "S"
  backupFolder := "B"
  backupItems := [⟨"u", false⟩]
  addonPaths := ["AX"]

def wfsR : FS where
  pathExists := fun p => p = "T" || p = "K"
  listDir := fun p => if p = "T" then ["old1"] else if p = "K" then ["d1", "_addons"] else []
  copyFails := fun _ => none
  deletePermError := fun _ => false

def wspR : RestoreSpec where
  backupFolder := "K"
  targetPath := "T"
  addonPaths := []

def c3fs : FS where
  pathExists := fun _ => false
  listDir := fun _ => []
  copyFails := fun _ => none
  deletePermError := fun _ => false

def c3sp : BackupSpec where
  sourcePath := "S"
  backupFolder := "B"
  backupItems := [⟨"", false⟩]
  addonPaths := []

def c6fs : FS where
  pathExists := fun p => p = "T" || p = "K"
  listDir := fun p => if p = "T" then ["_addons", "x"] else []
  copyFails := fun _ => none
  deletePermError := fun _ => false

def c6sp : RestoreSpec where
  backupFolder := "K"
  targetPath := "T"
  addonPaths := []

/-! ## Theorems about the process killer -/

/-- C7: `kill_process` succeeds when the process is already gone before any
action and when it vanishes (`NoSuchProcess`) mid-operation; it fails
exactly when access is denied or the process survives the forceful
kill's fixed wait; on the plain graceful path it reports graceful
termination; and every outcome is a (bool, message) pair. -/
theorem C7_kill_process_outcomes (b : ProcBeh) :
    (b.running0 = false → kill_process b =
      (true, "[OK] " ++ b.pname ++ " (PID " ++ toString b.pid ++ ") already terminated")) ∧
    (b.running0 = true → b.termRes = PsStep.noSuchProcess →
      (kill_process b).1 = true) ∧
    (b.running0 = true → b.termRes = PsStep.ok → b.waitGrace = WaitRes.timedOut →
      b.killRes = PsStep.noSuchProcess → (kill_process b).1 = true) ∧
    (b.running0 = true → b.termRes = PsStep.ok → b.waitGrace = WaitRes.exited →
      kill_process b = (true, "[OK] " ++ b.pname ++ " terminated gracefully")) ∧
    ((kill_process b).1 = false ↔
      b.running0 = true ∧
        (b.termRes = PsStep.accessDenied ∨
          (b.termRes = PsStep.ok ∧ b.waitGrace = WaitRes.timedOut ∧
            (b.killRes = PsStep.accessDenied ∨
              (b.killRes = PsStep.ok ∧ b.waitForce = WaitRes.timedOut))))) := by
  obtain ⟨nm, pid, r0, t, w1, k, w2⟩ := b
  cases r0 <;> cases t <;> cases w1 <;> cases k <;> cases w2 <;>
    simp [kill_process]

/-- Witness for C7 at a concrete behaviour: a process that is running,
terminates without raising, but only exits after the graceful timeout and
the forceful kill. -/
theorem C7_kill_process_outcomes_witness :
    kill_process ⟨"Foo", 7, true, PsStep.ok, WaitRes.timedOut, PsStep.ok, WaitRes.exited⟩ =
      (true, "[OK] Foo force killed") ∧
    (kill_process ⟨"Foo", 7, true, PsStep.ok, WaitRes.exited, PsStep.ok, WaitRes.exited⟩ =
      (true, "[OK] Foo terminated gracefully")) := by
  constructor
  · rfl
  · exact (C7_kill_process_outcomes
      ⟨"Foo", 7, true, PsStep.ok, WaitRes.exited, PsStep.ok, WaitRes.exited⟩).2.2.2.1
      rfl rfl rfl

/-- C8: `kill_all` on a name set with zero running matches returns
(true, "No processes running") immediately; its effect trace holds only
that single empty query — no kill calls and no sleeps. -/
theorem C8_kill_all_no_matches (queries : Nat → List Nat) (killOk forceOk : Nat → Bool)
    (h : queries 0 = []) :
    kill_all queries killOk forceOk = ((true, "No processes running"), [KAEffect.queryE []]) := by
  simp [kill_all, h]

/-- Witness for C8: a concrete environment whose first query is empty. -/
theorem C8_kill_all_no_matches_witness :
    (fun _ => ([] : List Nat)) 0 = ([] : List Nat) ∧
      kill_all (fun _ => []) (fun _ => true) (fun _ => true) =
        ((true, "No processes running"), [KAEffect.queryE []]) :=
  ⟨rfl, C8_kill_all_no_matches (fun _ => []) (fun _ => true) (fun _ => true) rfl⟩

/-- Auxiliary characterisation of the `smart_close` retry loop: a failure
result only arises in the exhausted-retries branch with the follow-up
query still finding processes, and if every attempt saw the app running
with a failing `kill_all` but the follow-up query after exhaustion finds
nothing, the loop returns the distinct optimistic success message after a
final 3-second settle sleep. -/
theorem smartCloseLoop_characterisation (app : String) (total : Nat) (runQ ka : Nat → Bool) :
    ∀ fuel idx,
      ((smartCloseLoop app total runQ ka fuel idx).1.1 = false →
        (smartCloseLoop app total runQ ka fuel idx).1.2 =
          "Failed to close " ++ app ++ " after " ++ toString total ++ " attempts" ∧
        runQ (idx + fuel) = true ∧
        (∀ t, t < fuel → runQ (idx + t) = true ∧ ka (idx + t) = false)) ∧
      ((∀ t, t < fuel → runQ (idx + t) = true ∧ ka (idx + t) = false) →
        runQ (idx + fuel) = false →
        (smartCloseLoop app total runQ ka fuel idx).1 =
          (true, app ++ " closed after retries") ∧
        ((smartCloseLoop app total runQ ka fuel idx).2).getLast? =
          some (SCEffect.sleepE 3000)) := by
  intro fuel
  induction fuel with
  | zero =>
    intro idx
    constructor
    · intro hfail
      by_cases hq : runQ idx
      · refine ⟨?_, ?_, ?_⟩
        · simp [smartCloseLoop, hq]
        · simpa using hq
        · intro t ht; omega
      · simp [smartCloseLoop, hq] at hfail
    · intro _ hq
      simp at hq
      constructor
      · simp [smartCloseLoop, hq]
      · simp [smartCloseLoop, hq]
  | succ fuel ih =>
    intro idx
    constructor
    · intro hfail
      by_cases hq : runQ idx
      · by_cases hka : ka idx
        · simp [smartCloseLoop, hq, hka] at hfail
        · have hloop : smartCloseLoop app total runQ ka (fuel + 1) idx =
              ((smartCloseLoop app total runQ ka fuel (idx + 1)).1,
                SCEffect.checkRunningE true :: SCEffect.killAllE false ::
                  (if fuel = 0 then [] else [SCEffect.sleepE 2000]) ++
                    (smartCloseLoop app total runQ ka fuel (idx + 1)).2) := by
            simp [smartCloseLoop, hq, hka]
          have hfail' : (smartCloseLoop app total runQ ka fuel (idx + 1)).1.1 = false := by
            rw [hloop] at hfail; exact hfail
          obtain ⟨hmsg, hlast, hall⟩ := (ih (idx + 1)).1 hfail'
          refine ⟨?_, ?_, ?_⟩
          · rw [hloop]; exact hmsg
          · have : idx + 1 + fuel = idx + (fuel + 1) := by omega
            rwa [this] at hlast
          · intro t ht
            cases t with
            | zero => simpa using ⟨hq, by simpa using hka⟩
            | succ t =>
              have := hall t (by omega)
              have harith : idx + 1 + t = idx + (t + 1) := by omega
              rwa [harith] at this
      · simp [smartCloseLoop, hq] at hfail
    · intro hall hq
      have hq0 : runQ idx = true := (hall 0 (by omega)).1
      have hka0 : ka idx = false := (hall 0 (by omega)).2
      have hloop : smartCloseLoop app total runQ ka (fuel + 1) idx =
          ((smartCloseLoop app total runQ ka fuel (idx + 1)).1,
            SCEffect.checkRunningE true :: SCEffect.killAllE false ::
              (if fuel = 0 then [] else [SCEffect.sleepE 2000]) ++
                (smartCloseLoop app total runQ ka fuel (idx + 1)).2) := by
        simp [smartCloseLoop, hq0, hka0]
      have hall' : ∀ t, t < fuel → runQ (idx + 1 + t) = true ∧ ka (idx + 1 + t) = false := by
        intro t ht
        have := hall (t + 1) (by omega)
        have harith : idx + (t + 1) = idx + 1 + t := by omega
        rwa [harith] at this
      have hq' : runQ (idx + 1 + fuel) = false := by
        have harith : idx + 1 + fuel = idx + (fuel + 1) := by omega
        rwa [harith]
      obtain ⟨hres, hlast⟩ := (ih (idx + 1)).2 hall' hq'
      constructor
      · rw [hloop]; exact hres
      · rw [hloop]
        simp only
        have hne : (smartCloseLoop app total runQ ka fuel (idx + 1)).2 ≠ [] := by
          cases fuel with
          | zero =>
            by_cases h : runQ (idx + 1) <;> simp [smartCloseLoop, h]
          | succ f =>
            by_cases h1 : runQ (idx + 1) = false
            · simp [smartCloseLoop, h1]
            · by_cases h2 : ka (idx + 1) <;>
                simp [smartCloseLoop, h1, h2]
        rw [List.getLast?_append, hlast]
        rfl

/-- C5: `smart_close` reports failure only when, with all `maxRetries`
attempts exhausted, the follow-up query still finds matching processes
(each attempt having seen the app running and its `kill_all` fail); and
when that final query finds none it returns success with the distinct
message "(app) closed after retries", its trace ending in the final
3-second settle sleep. -/
theorem C5_smart_close_failure_condition (app : String) (maxRetries : Nat)
    (runQ ka : Nat → Bool) :
    ((smart_close app maxRetries runQ ka).1.1 = false →
      (smart_close app maxRetries runQ ka).1.2 =
        "Failed to close " ++ app ++ " after " ++ toString maxRetries ++ " attempts" ∧
      runQ maxRetries = true ∧
      (∀ t, t < maxRetries → runQ t = true ∧ ka t = false)) ∧
    ((∀ t, t < maxRetries → runQ t = true ∧ ka t = false) →
      runQ maxRetries = false →
      (smart_close app maxRetries runQ ka).1 = (true, app ++ " closed after retries") ∧
      ((smart_close app maxRetries runQ ka).2).getLast? = some (SCEffect.sleepE 3000)) := by
  have h := smartCloseLoop_characterisation app maxRetries runQ ka maxRetries 0
  simp only [Nat.zero_add] at h
  exact h

/-- Witness for C5: with 2 attempts whose kill_all calls both fail while
the app keeps running, but a final query that finds nothing, the result is
the optimistic success with the distinct message. -/
theorem C5_smart_close_failure_condition_witness :
    (∀ t, t < 2 → (fun i => decide (i < 2)) t = true ∧ (fun _ => false) t = false) ∧
    (fun i => decide (i < 2)) 2 = false ∧
    (smart_close "App" 2 (fun i => decide (i < 2)) (fun _ => false)).1 =
      (true, "App closed after retries") := by
  refine ⟨?_, ?_, ?_⟩
  · intro t ht
    constructor
    · simpa using ht
    · rfl
  · simp
  · exact ((C5_smart_close_failure_condition "App" 2 (fun i => decide (i < 2))
      (fun _ => false)).2
      (by intro t ht; exact ⟨by simpa using ht, rfl⟩) (by simp)).1


/-- Branch analysis for one fresh enumeration: it returns exactly the
filtered process-table snapshot, reports that an enumeration happened,
and updates the cache (with the shared expiry pushed to now + 2s) only
when the result is non-empty. -/
theorem pkEnumerate_spec (names : List String) (now : Nat)
    (procTable : List (Nat × String)) (st : PKCache) :
    (pkEnumerate names now procTable st).1 =
      procTable.filter (fun p => nameMatches names p.2) ∧
    (pkEnumerate names now procTable st).2.2 = true ∧
    (procTable.filter (fun p => nameMatches names p.2) = [] →
      (pkEnumerate names now procTable st).2.1 = st) ∧
    (procTable.filter (fun p => nameMatches names p.2) ≠ [] →
      (pkEnumerate names now procTable st).2.1 =
        { cache := storeCache st.cache (sortKey names)
            (procTable.filter (fun p => nameMatches names p.2)),
          cacheExpiry := now + 2000 }) := by
  by_cases h : procTable.filter (fun p => nameMatches names p.2) = []
  · refine ⟨?_, ?_, fun _ => ?_, fun hne => absurd h hne⟩ <;>
      simp only [pkEnumerate, if_pos h]
  · refine ⟨?_, ?_, fun he => absurd he h, fun _ => ?_⟩ <;>
      simp only [pkEnumerate, if_neg h]

/-- C9 counterexample: the source keeps a single process-wide
`_cache_expiry`, so a cache entry does not expire 2 seconds after its own
creation.  The entry for key ["a"] is created at time 0 (with expiry
2000), a store for key ["b"] at time 1500 pushes the shared expiry to
3500, and a query for ["a"] at time 2500 — past that entry's claimed
2-second lifetime — is still served from the cache (third component
`false` records that no OS enumeration took place). -/
theorem C9_per_entry_expiry_counterexample :
    c9stA.2.1.cache = [(["a"], [(1, "a")])] ∧
    c9stA.2.1.cacheExpiry = 2000 ∧
    c9stB.2.1.cacheExpiry = 3500 ∧
    c9q3.2.2 = false ∧
    c9q3.1 = [(1, "a")] := by
  refine ⟨?_, ?_, ?_, ?_, ?_⟩ <;> decide

/-- C9 amended: the cache expiry is a single process-wide timestamp,
refreshed to now + 2s whenever a non-empty enumeration is stored under any
key (so a store for one key extends the effective validity of every cached
key); while the shared timestamp is unexpired, a query whose cached
handles filtered to still-alive ones are non-empty returns that filtered
list without re-enumerating the OS and leaves the cache untouched; a
fresh enumeration result is stored (under the sorted, not deduplicated,
name list) only when it is non-empty. -/
theorem C9_cache_policy (names : List String) (now : Nat)
    (procTable : List (Nat × String)) (aliveNow : Nat → Bool) (st : PKCache) :
    (∀ cached, now < st.cacheExpiry →
      lookupCache st.cache (sortKey names) = some cached →
      cached.filter (fun p => aliveNow p.1) ≠ [] →
      get_running_processes names now procTable aliveNow st =
        (cached.filter (fun p => aliveNow p.1), st, false)) ∧
    ((get_running_processes names now procTable aliveNow st).2.2 = true →
      (get_running_processes names now procTable aliveNow st).1 =
        procTable.filter (fun p => nameMatches names p.2) ∧
      (procTable.filter (fun p => nameMatches names p.2) = [] →
        (get_running_processes names now procTable aliveNow st).2.1 = st) ∧
      (procTable.filter (fun p => nameMatches names p.2) ≠ [] →
        (get_running_processes names now procTable aliveNow st).2.1 =
          { cache := storeCache st.cache (sortKey names)
              (procTable.filter (fun p => nameMatches names p.2)),
            cacheExpiry := now + 2000 })) := by
  have hspec := pkEnumerate_spec names now procTable st
  constructor
  · intro cached hnow hlook hvalid
    simp [get_running_processes, hnow, hlook, hvalid]
  · by_cases hnow : now < st.cacheExpiry
    · cases hlook : lookupCache st.cache (sortKey names) with
      | none =>
        have heq : get_running_processes names now procTable aliveNow st =
            pkEnumerate names now procTable st := by
          simp [get_running_processes, hnow, hlook]
        intro _
        rw [heq]
        exact ⟨hspec.1, hspec.2.2.1, hspec.2.2.2⟩
      | some cached =>
        by_cases hvalid : cached.filter (fun p => aliveNow p.1) = []
        · have heq : get_running_processes names now procTable aliveNow st =
              pkEnumerate names now procTable st := by
            simp [get_running_processes, hnow, hlook, hvalid]
          intro _
          rw [heq]
          exact ⟨hspec.1, hspec.2.2.1, hspec.2.2.2⟩
        · intro henum
          exfalso
          have hfalse : (get_running_processes names now procTable aliveNow st).2.2 = false := by
            simp [get_running_processes, hnow, hlook, hvalid]
          rw [hfalse] at henum
          exact Bool.noConfusion henum
    · have heq : get_running_processes names now procTable aliveNow st =
          pkEnumerate names now procTable st := by
        simp [get_running_processes, hnow]
      intro _
      rw [heq]
      exact ⟨hspec.1, hspec.2.2.1, hspec.2.2.2⟩

/-- Witness for C9: the cache-hit branch evaluated on the concrete
three-query scenario: the query for ["a"] at time 2500 returns the cached
handle with no enumeration and no state change. -/
theorem C9_cache_policy_witness :
    (2500 : Nat) < c9stB.2.1.cacheExpiry ∧
    get_running_processes ["a"] 2500 [] (fun _ => true) c9stB.2.1 =
      ([(1, "a")], c9stB.2.1, false) := by
  refine ⟨by decide, ?_⟩
  have h := (C9_cache_policy ["a"] 2500 [] (fun _ => true) c9stB.2.1).1
    [(1, "a")] (by decide) (by decide) (by decide)
  simpa using h

/-! ## Generic lemmas about the worker loop shape -/

theorem workerLoop_nil {σ α : Type} (step : Nat → σ → α → List Event × σ × Outcome)
    (i : Nat) (s : σ) (cl : Option Nat) :
    workerLoop step [] i s cl = ([], cl, Outcome.ok) := rfl

theorem workerLoop_cons_cancelled {σ α : Type} (step : Nat → σ → α → List Event × σ × Outcome)
    (x : α) (rest : List α) (i : Nat) (s : σ) (cl : Option Nat) (h : cancelNow cl = true) :
    workerLoop step (x :: rest) i s cl =
      ([Event.finished false "Cancelled"], cl, Outcome.returned) := by
  simp [workerLoop, h]

theorem workerLoop_cons_ok {σ α : Type} (step : Nat → σ → α → List Event × σ × Outcome)
    (x : α) (rest : List α) (i : Nat) (s : σ) (cl : Option Nat)
    (h1 : cancelNow cl = false) (h2 : (step i s x).2.2 = Outcome.ok) :
    workerLoop step (x :: rest) i s cl =
      (Event.check :: ((step i s x).1 ++
          (workerLoop step rest (i + 1) ((step i s x).2.1) (cancelStep cl)).1),
        (workerLoop step rest (i + 1) ((step i s x).2.1) (cancelStep cl)).2.1,
        (workerLoop step rest (i + 1) ((step i s x).2.1) (cancelStep cl)).2.2) := by
  simp [workerLoop, h1, h2]

theorem workerLoop_cons_stop {σ α : Type} (step : Nat → σ → α → List Event × σ × Outcome)
    (x : α) (rest : List α) (i : Nat) (s : σ) (cl : Option Nat)
    (h1 : cancelNow cl = false) (h2 : (step i s x).2.2 ≠ Outcome.ok) :
    workerLoop step (x :: rest) i s cl =
      (Event.check :: (step i s x).1, cancelStep cl, (step i s x).2.2) := by
  simp [workerLoop, h1, h2]

theorem checkCount_nil : checkCount [] = 0 := rfl

theorem checkCount_cons (e : Event) (tr : List Event) :
    checkCount (e :: tr) = checkCount tr + (if isCheckEv e then 1 else 0) := by
  simp [checkCount, List.countP_cons]

theorem checkCount_append (a b : List Event) :
    checkCount (a ++ b) = checkCount a + checkCount b := by
  simp [checkCount, List.countP_append]

theorem checkCount_eq_zero (a : List Event) (h : Event.check ∉ a) : checkCount a = 0 := by
  rw [checkCount, List.countP_eq_zero]
  intro e he
  cases e <;> simp_all [isCheckEv]

theorem checkCount_check_cons (tr : List Event) :
    checkCount (Event.check :: tr) = checkCount tr + 1 := by
  simp [checkCount, List.countP_cons, isCheckEv]

theorem finishedCount_nil : finishedCount [] = 0 := rfl

theorem finishedCount_append (a b : List Event) :
    finishedCount (a ++ b) = finishedCount a + finishedCount b := by
  simp [finishedCount, List.countP_append]

theorem finishedCount_eq_zero (a : List Event) (h : ∀ e ∈ a, isFinishedEv e = false) :
    finishedCount a = 0 := by
  rw [finishedCount, List.countP_eq_zero]
  intro e he
  simp [h e he]

theorem truncBeforeCheck_checkfree_append (k : Nat) (ev tl : List Event)
    (h : Event.check ∉ ev) :
    truncBeforeCheck k (ev ++ tl) = ev ++ truncBeforeCheck k tl := by
  induction ev with
  | nil => rfl
  | cons e es ih =>
    have he : e ≠ Event.check := by
      intro hgo
      exact h (hgo ▸ List.mem_cons_self e es)
    have hes : Event.check ∉ es := fun hx => h (List.mem_cons_of_mem e hx)
    simp only [List.cons_append, truncBeforeCheck, if_neg he]
    exact congrArg (e :: ·) (ih hes)

theorem truncBeforeCheck_check_cons (k : Nat) (tl : List Event) :
    truncBeforeCheck (k + 1) (Event.check :: tl) =
      Event.check :: truncBeforeCheck k tl := by
  simp [truncBeforeCheck]

theorem truncBeforeCheck_check_zero (tl : List Event) :
    truncBeforeCheck 0 (Event.check :: tl) = [] := by
  simp [truncBeforeCheck]

theorem truncBeforeCheck_prefix (k : Nat) (tr : List Event) :
    ∃ rest, tr = truncBeforeCheck k tr ++ rest := by
  induction tr generalizing k with
  | nil => exact ⟨[], rfl⟩
  | cons e tl ih =>
    by_cases he : e = Event.check
    · subst he
      cases k with
      | zero => exact ⟨Event.check :: tl, rfl⟩
      | succ k2 =>
        obtain ⟨rest, hrest⟩ := ih k2
        exact ⟨rest, by rw [truncBeforeCheck_check_cons]; simpa using hrest⟩
    · obtain ⟨rest, hrest⟩ := ih k
      refine ⟨rest, ?_⟩
      simp only [truncBeforeCheck, if_neg he, List.cons_append]
      exact congrArg (e :: ·) hrest

theorem truncBeforeCheck_append_of_lt (k : Nat) (a b : List Event)
    (h : k < checkCount a) :
    truncBeforeCheck k (a ++ b) = truncBeforeCheck k a := by
  induction a generalizing k with
  | nil => simp [checkCount] at h
  | cons e tl ih =>
    by_cases he : e = Event.check
    · subst he
      cases k with
      | zero => simp [truncBeforeCheck]
      | succ k2 =>
        have hk2 : k2 < checkCount tl := by
          have := checkCount_cons Event.check tl
          simp [isCheckEv] at this
          omega
        simp only [List.cons_append, truncBeforeCheck_check_cons]
        exact congrArg (Event.check :: ·) (ih k2 hk2)
    · have hk : k < checkCount tl := by
        have h1 := checkCount_cons e tl
        have hzero : (if isCheckEv e then 1 else 0) = 0 := by
          cases e <;> simp_all [isCheckEv]
        omega
      simp only [List.cons_append, truncBeforeCheck, if_neg he]
      exact congrArg (e :: ·) (ih k hk)

theorem cancelStep_none : cancelStep none = none := rfl

theorem cancelStep_some_succ (k : Nat) : cancelStep (some (k + 1)) = some k := by
  simp [cancelStep]

theorem cancelNow_none : cancelNow none = false := rfl

theorem cancelNow_some_succ (k : Nat) : cancelNow (some (k + 1)) = false := rfl

theorem cancelNow_some_zero : cancelNow (some 0) = true := rfl

/-- Cancellation behaviour of a worker loop, relative to the same loop
with the token never set: a token first read as set at the k-th read
(with k below the number of reads of the uncancelled loop) truncates the
uncancelled event sequence at that read and appends the terminal
Cancelled failure; a token set later than every read leaves the loop's
behaviour unchanged. -/
theorem workerLoop_cancel {σ α : Type} (step : Nat → σ → α → List Event × σ × Outcome)
    (hstep : ∀ i s x, Event.check ∉ (step i s x).1) :
    ∀ (l : List α) (i : Nat) (s : σ) (k : Nat),
      (k < checkCount (workerLoop step l i s none).1 →
        (workerLoop step l i s (some k)).1 =
          truncBeforeCheck k (workerLoop step l i s none).1 ++
            [Event.finished false "Cancelled"] ∧
        (workerLoop step l i s (some k)).2.2 = Outcome.returned) ∧
      (checkCount (workerLoop step l i s none).1 ≤ k →
        (workerLoop step l i s (some k)).1 = (workerLoop step l i s none).1 ∧
        (workerLoop step l i s (some k)).2.2 = (workerLoop step l i s none).2.2 ∧
        ((workerLoop step l i s none).2.2 = Outcome.ok →
          (workerLoop step l i s (some k)).2.1 = some (k - l.length))) := by
  intro l
  induction l with
  | nil =>
    intro i s k
    constructor
    · intro h
      rw [workerLoop_nil] at h
      simp [checkCount] at h
    · intro _
      rw [workerLoop_nil, workerLoop_nil]
      exact ⟨rfl, rfl, fun _ => by simp⟩
  | cons x rest ih =>
    intro i s k
    have hone := workerLoop_cons_cancelled step x rest i s (some 0) cancelNow_some_zero
    by_cases ho : (step i s x).2.2 = Outcome.ok
    · have hn := workerLoop_cons_ok step x rest i s none cancelNow_none ho
      have hcount : checkCount (workerLoop step (x :: rest) i s none).1 =
          1 + checkCount (workerLoop step rest (i + 1) ((step i s x).2.1) none).1 := by
        rw [hn]
        simp only [cancelStep_none]
        rw [checkCount_check_cons, checkCount_append,
          checkCount_eq_zero _ (hstep i s x)]
        omega
      constructor
      · intro hk
        cases k with
        | zero =>
          rw [hone, hn]
          simp [truncBeforeCheck_check_zero]
        | succ k2 =>
          have hk2 : k2 <
              checkCount (workerLoop step rest (i + 1) ((step i s x).2.1) none).1 := by
            omega
          have hs := workerLoop_cons_ok step x rest i s (some (k2 + 1))
            (cancelNow_some_succ k2) ho
          obtain ⟨hev, hout⟩ := (ih (i + 1) ((step i s x).2.1) k2).1 hk2
          constructor
          · rw [hs, hn]
            simp only [cancelStep_none, cancelStep_some_succ, truncBeforeCheck_check_cons,
              truncBeforeCheck_checkfree_append k2 _ _ (hstep i s x)]
            rw [hev]
            simp
          · rw [hs]
            simp only [cancelStep_some_succ]
            exact hout
      · intro hk
        cases k with
        | zero => omega
        | succ k2 =>
          have hk2 : checkCount (workerLoop step rest (i + 1) ((step i s x).2.1) none).1
              ≤ k2 := by
            omega
          have hs := workerLoop_cons_ok step x rest i s (some (k2 + 1))
            (cancelNow_some_succ k2) ho
          obtain ⟨hev, hout, hcl⟩ := (ih (i + 1) ((step i s x).2.1) k2).2 hk2
          rw [hs, hn]
          simp only [cancelStep_none, cancelStep_some_succ]
          refine ⟨by rw [hev], by rw [hout], ?_⟩
          intro hok
          rw [hcl hok]
          have hlen : (x :: rest).length = rest.length + 1 := rfl
          rw [hlen]
          congr 1
          omega
    · have hn := workerLoop_cons_stop step x rest i s none cancelNow_none ho
      have hcount : checkCount (workerLoop step (x :: rest) i s none).1 = 1 := by
        rw [hn]
        rw [checkCount_check_cons, checkCount_eq_zero _ (hstep i s x)]
      constructor
      · intro hk
        have hk0 : k = 0 := by omega
        subst hk0
        rw [hone, hn]
        simp [truncBeforeCheck_check_zero]
      · intro hk
        cases k with
        | zero => omega
        | succ k2 =>
          have hs := workerLoop_cons_stop step x rest i s (some (k2 + 1))
            (cancelNow_some_succ k2) ho
          rw [hs, hn]
          exact ⟨rfl, rfl, fun hok => absurd hok ho⟩

theorem finishedCount_cons_nf (e : Event) (tr : List Event) (h : isFinishedEv e = false) :
    finishedCount (e :: tr) = finishedCount tr := by
  simp [finishedCount, List.countP_cons, h]

theorem pcts_nil : pcts [] = [] := rfl

theorem pcts_append (a b : List Event) : pcts (a ++ b) = pcts a ++ pcts b := by
  simp [pcts]

theorem pcts_cons_check (tr : List Event) : pcts (Event.check :: tr) = pcts tr := rfl

theorem pcts_cons_log (m : String) (tr : List Event) :
    pcts (Event.log m :: tr) = pcts tr := rfl

theorem pcts_cons_progress (p : Nat) (m : String) (tr : List Event) :
    pcts (Event.progress p m :: tr) = p :: pcts tr := rfl

theorem pcts_cons_finished (b : Bool) (m : String) (tr : List Event) :
    pcts (Event.finished b m :: tr) = pcts tr := rfl

/-- A worker loop emits at most one terminal event: exactly the Cancelled
failure when cancellation was detected, and none otherwise. -/
theorem workerLoop_finished {σ α : Type} (step : Nat → σ → α → List Event × σ × Outcome)
    (hfin : ∀ i s x, ∀ e ∈ (step i s x).1, isFinishedEv e = false)
    (hnr : ∀ i s x, (step i s x).2.2 ≠ Outcome.returned) :
    ∀ (l : List α) (i : Nat) (s : σ) (cl : Option Nat),
      ((workerLoop step l i s cl).2.2 = Outcome.returned →
        ∃ pre, (workerLoop step l i s cl).1 = pre ++ [Event.finished false "Cancelled"] ∧
          finishedCount pre = 0) ∧
      ((workerLoop step l i s cl).2.2 ≠ Outcome.returned →
        finishedCount (workerLoop step l i s cl).1 = 0) := by
  intro l
  induction l with
  | nil =>
    intro i s cl
    rw [workerLoop_nil]
    exact ⟨fun h => absurd h (by simp), fun _ => rfl⟩
  | cons x rest ih =>
    intro i s cl
    by_cases hc : cancelNow cl = true
    · rw [workerLoop_cons_cancelled step x rest i s cl hc]
      exact ⟨fun _ => ⟨[], rfl, rfl⟩, fun h => absurd rfl h⟩
    · have hc2 : cancelNow cl = false := by simpa using hc
      by_cases ho : (step i s x).2.2 = Outcome.ok
      · have hn := workerLoop_cons_ok step x rest i s cl hc2 ho
        obtain ⟨ih1, ih2⟩ := ih (i + 1) ((step i s x).2.1) (cancelStep cl)
        rw [hn]
        constructor
        · intro hret
          obtain ⟨pre, hpre, hcount⟩ := ih1 hret
          refine ⟨Event.check :: ((step i s x).1 ++ pre), ?_, ?_⟩
          · rw [hpre]
            simp
          · rw [finishedCount_cons_nf Event.check _ rfl, finishedCount_append,
              finishedCount_eq_zero _ (hfin i s x), hcount]
        · intro hret
          rw [finishedCount_cons_nf Event.check _ rfl, finishedCount_append,
            finishedCount_eq_zero _ (hfin i s x), ih2 hret]
      · have hn := workerLoop_cons_stop step x rest i s cl hc2 ho
        rw [hn]
        constructor
        · intro hret
          exact absurd hret (hnr i s x)
        · intro _
          rw [finishedCount_cons_nf Event.check _ rfl, finishedCount_eq_zero _ (hfin i s x)]

/-- The percent values a worker loop emits form a subsequence of the
per-index weight function applied to the processed index range. -/
theorem workerLoop_pcts {σ α : Type} (step : Nat → σ → α → List Event × σ × Outcome)
    (v : Nat → Nat) (hp : ∀ i s x, List.Sublist (pcts (step i s x).1) [v i]) :
    ∀ (l : List α) (i : Nat) (s : σ) (cl : Option Nat),
      List.Sublist (pcts (workerLoop step l i s cl).1) ((List.range' i l.length).map v) := by
  intro l
  induction l with
  | nil =>
    intro i s cl
    rw [workerLoop_nil]
    simp [pcts_nil]
  | cons x rest ih =>
    intro i s cl
    have hrange : (List.range' i (x :: rest).length).map v =
        v i :: (List.range' (i + 1) rest.length).map v := rfl
    rw [hrange]
    by_cases hc : cancelNow cl = true
    · rw [workerLoop_cons_cancelled step x rest i s cl hc]
      simp [pcts]
    · have hc2 : cancelNow cl = false := by simpa using hc
      by_cases ho : (step i s x).2.2 = Outcome.ok
      · rw [workerLoop_cons_ok step x rest i s cl hc2 ho]
        rw [pcts_cons_check, pcts_append]
        have happ := List.Sublist.append (hp i s x)
          (ih (i + 1) ((step i s x).2.1) (cancelStep cl))
        simpa using happ
      · rw [workerLoop_cons_stop step x rest i s cl hc2 ho]
        rw [pcts_cons_check]
        exact (hp i s x).trans ((List.nil_sublist _).cons₂ (v i))

/-! ## Per-step facts feeding the generic loop lemmas -/

theorem backupItemStep_facts (fs : FS) (a b : String) (total i : Nat) (s : Unit)
    (it : TransferItem) :
    Event.check ∉ (backupItemStep fs a b total i s it).1 ∧
    (∀ e ∈ (backupItemStep fs a b total i s it).1, isFinishedEv e = false) ∧
    (backupItemStep fs a b total i s it).2.2 ≠ Outcome.returned ∧
    List.Sublist (pcts (backupItemStep fs a b total i s it).1)
      [30 + (i + 1) * 50 / total] := by
  by_cases hp : it.path = ""
  · simp [backupItemStep, hp, pcts, isFinishedEv]
  · by_cases he : fs.pathExists (joinPath a it.path)
    · cases hcf : fs.copyFails (joinPath a it.path) with
      | some m => simp [backupItemStep, hp, he, hcf, pcts, isFinishedEv]
      | none => simp [backupItemStep, hp, he, hcf, pcts, isFinishedEv]
    · by_cases hop : it.optional <;>
        simp [backupItemStep, hp, he, hop, pcts, isFinishedEv]

theorem backupFallbackStep_facts (fs : FS) (a b : String) (total i : Nat) (s : Unit)
    (name : String) :
    Event.check ∉ (backupFallbackStep fs a b total i s name).1 ∧
    (∀ e ∈ (backupFallbackStep fs a b total i s name).1, isFinishedEv e = false) ∧
    (backupFallbackStep fs a b total i s name).2.2 ≠ Outcome.returned ∧
    List.Sublist (pcts (backupFallbackStep fs a b total i s name).1)
      [30 + (i + 1) * 50 / total] := by
  cases hcf : fs.copyFails (joinPath a name) with
  | some m => simp [backupFallbackStep, hcf, pcts, isFinishedEv]
  | none => simp [backupFallbackStep, hcf, pcts, isFinishedEv]

theorem backupAddonStep_facts (fs : FS) (dir : String) (total j : Nat) (nm : Option String)
    (a : String) :
    Event.check ∉ (backupAddonStep fs dir total j nm a).1 ∧
    (∀ e ∈ (backupAddonStep fs dir total j nm a).1, isFinishedEv e = false) ∧
    (backupAddonStep fs dir total j nm a).2.2 ≠ Outcome.returned ∧
    List.Sublist (pcts (backupAddonStep fs dir total j nm a).1)
      [80 + (j + 1) * 15 / total] := by
  by_cases he : fs.pathExists a
  · cases hcf : fs.copyFails a with
    | some m => simp [backupAddonStep, he, hcf, pcts, isFinishedEv]
    | none => simp [backupAddonStep, he, hcf, pcts, isFinishedEv]
  · cases nm with
    | none => simp [backupAddonStep, he, pcts, isFinishedEv]
    | some an => simp [backupAddonStep, he, pcts, isFinishedEv]

theorem restoreDeleteStep_facts (fs : FS) (target : String) (i : Nat) (s : Unit)
    (name : String) :
    Event.check ∉ (restoreDeleteStep fs target i s name).1 ∧
    (∀ e ∈ (restoreDeleteStep fs target i s name).1, isFinishedEv e = false) ∧
    (restoreDeleteStep fs target i s name).2.2 ≠ Outcome.returned ∧
    pcts (restoreDeleteStep fs target i s name).1 = [] := by
  by_cases hperm : fs.deletePermError (joinPath target name) <;>
    simp [restoreDeleteStep, hperm, pcts, isFinishedEv]

theorem restoreItemStep_facts (fs : FS) (a b : String) (total i : Nat) (s : Unit)
    (name : String) :
    Event.check ∉ (restoreItemStep fs a b total i s name).1 ∧
    (∀ e ∈ (restoreItemStep fs a b total i s name).1, isFinishedEv e = false) ∧
    (restoreItemStep fs a b total i s name).2.2 ≠ Outcome.returned ∧
    List.Sublist (pcts (restoreItemStep fs a b total i s name).1)
      [30 + (i + 1) * 50 / total] := by
  cases hcf : fs.copyFails (joinPath a name) with
  | some m => simp [restoreItemStep, hcf, pcts, isFinishedEv]
  | none => simp [restoreItemStep, hcf, pcts, isFinishedEv]

theorem restoreAddonStep_facts (fs : FS) (dir : String) (total j : Nat) (s : Unit)
    (a : String) :
    Event.check ∉ (restoreAddonStep fs dir total j s a).1 ∧
    (∀ e ∈ (restoreAddonStep fs dir total j s a).1, isFinishedEv e = false) ∧
    (restoreAddonStep fs dir total j s a).2.2 ≠ Outcome.returned ∧
    List.Sublist (pcts (restoreAddonStep fs dir total j s a).1)
      [80 + (j + 1) * 15 / total] := by
  by_cases he : fs.pathExists (joinPath dir (basename a))
  · cases hcf : fs.copyFails (joinPath dir (basename a)) with
    | some m => simp [restoreAddonStep, he, hcf, pcts, isFinishedEv]
    | none =>
      by_cases hex : fs.pathExists a <;>
        simp [restoreAddonStep, he, hcf, hex, pcts, isFinishedEv]
  · simp [restoreAddonStep, he, pcts, isFinishedEv]

/-! ## Composition lemmas for the two run bodies -/

theorem workerLoop_none_outcome {σ α : Type} (step : Nat → σ → α → List Event × σ × Outcome)
    (hnr : ∀ i s x, (step i s x).2.2 ≠ Outcome.returned) :
    ∀ (l : List α) (i : Nat) (s : σ),
      (workerLoop step l i s none).2.2 ≠ Outcome.returned := by
  intro l
  induction l with
  | nil =>
    intro i s
    rw [workerLoop_nil]
    simp
  | cons x rest ih =>
    intro i s
    by_cases ho : (step i s x).2.2 = Outcome.ok
    · rw [workerLoop_cons_ok step x rest i s none cancelNow_none ho]
      exact ih (i + 1) ((step i s x).2.1)
    · rw [workerLoop_cons_stop step x rest i s none cancelNow_none ho]
      exact hnr i s x

theorem backup_run_core_p1_stop (fs : FS) (sp : BackupSpec) (cl : Option Nat)
    (h : (backupPhase1 fs sp cl).2.2 ≠ Outcome.ok) :
    backup_run_core fs sp cl = ((backupPhase1 fs sp cl).1, (backupPhase1 fs sp cl).2.2) := by
  simp only [backup_run_core]
  rw [if_neg h]

theorem backup_run_core_p2_stop (fs : FS) (sp : BackupSpec) (cl : Option Nat)
    (h1 : (backupPhase1 fs sp cl).2.2 = Outcome.ok)
    (h2 : (backupPhase2 fs sp (backupPhase1 fs sp cl).2.1).2 ≠ Outcome.ok) :
    backup_run_core fs sp cl =
      ((backupPhase1 fs sp cl).1 ++ (backupPhase2 fs sp (backupPhase1 fs sp cl).2.1).1,
        (backupPhase2 fs sp (backupPhase1 fs sp cl).2.1).2) := by
  simp only [backup_run_core]
  rw [if_pos h1, if_neg h2]

theorem backup_run_core_all_ok (fs : FS) (sp : BackupSpec) (cl : Option Nat)
    (h1 : (backupPhase1 fs sp cl).2.2 = Outcome.ok)
    (h2 : (backupPhase2 fs sp (backupPhase1 fs sp cl).2.1).2 = Outcome.ok) :
    backup_run_core fs sp cl =
      ((backupPhase1 fs sp cl).1 ++ (backupPhase2 fs sp (backupPhase1 fs sp cl).2.1).1 ++
        [Event.progress 100 "Backup complete!", Event.finished true "Backup complete"],
        Outcome.ok) := by
  simp only [backup_run_core]
  rw [if_pos h1, if_pos h2]

theorem restore_run_core_p0_stop (fs : FS) (sp : RestoreSpec) (cl : Option Nat)
    (h : (restorePhase0 fs sp cl).2.2 ≠ Outcome.ok) :
    restore_run_core fs sp cl =
      (Event.progress 10 "Removing existing data..." :: (restorePhase0 fs sp cl).1,
        (restorePhase0 fs sp cl).2.2) := by
  simp only [restore_run_core]
  rw [if_neg h]

theorem restore_run_core_p1_stop (fs : FS) (sp : RestoreSpec) (cl : Option Nat)
    (h0 : (restorePhase0 fs sp cl).2.2 = Outcome.ok)
    (h1 : (restorePhase1 fs sp (restorePhase0 fs sp cl).2.1).2.2 ≠ Outcome.ok) :
    restore_run_core fs sp cl =
      ((Event.progress 10 "Removing existing data..." :: (restorePhase0 fs sp cl).1) ++
        Event.progress 30 "Restoring data..." ::
          (restorePhase1 fs sp (restorePhase0 fs sp cl).2.1).1,
        (restorePhase1 fs sp (restorePhase0 fs sp cl).2.1).2.2) := by
  simp only [restore_run_core]
  rw [if_pos h0, if_neg h1]

theorem restore_run_core_p2_stop (fs : FS) (sp : RestoreSpec) (cl : Option Nat)
    (h0 : (restorePhase0 fs sp cl).2.2 = Outcome.ok)
    (h1 : (restorePhase1 fs sp (restorePhase0 fs sp cl).2.1).2.2 = Outcome.ok)
    (h2 : (restorePhase2 fs sp
        (restorePhase1 fs sp (restorePhase0 fs sp cl).2.1).2.1).2 ≠ Outcome.ok) :
    restore_run_core fs sp cl =
      (((Event.progress 10 "Removing existing data..." :: (restorePhase0 fs sp cl).1) ++
        Event.progress 30 "Restoring data..." ::
          (restorePhase1 fs sp (restorePhase0 fs sp cl).2.1).1) ++
        (restorePhase2 fs sp (restorePhase1 fs sp (restorePhase0 fs sp cl).2.1).2.1).1,
        (restorePhase2 fs sp (restorePhase1 fs sp (restorePhase0 fs sp cl).2.1).2.1).2) := by
  simp only [restore_run_core]
  rw [if_pos h0, if_pos h1, if_neg h2]

theorem restore_run_core_all_ok (fs : FS) (sp : RestoreSpec) (cl : Option Nat)
    (h0 : (restorePhase0 fs sp cl).2.2 = Outcome.ok)
    (h1 : (restorePhase1 fs sp (restorePhase0 fs sp cl).2.1).2.2 = Outcome.ok)
    (h2 : (restorePhase2 fs sp
        (restorePhase1 fs sp (restorePhase0 fs sp cl).2.1).2.1).2 = Outcome.ok) :
    restore_run_core fs sp cl =
      (((Event.progress 10 "Removing existing data..." :: (restorePhase0 fs sp cl).1) ++
        Event.progress 30 "Restoring data..." ::
          (restorePhase1 fs sp (restorePhase0 fs sp cl).2.1).1) ++
        (restorePhase2 fs sp (restorePhase1 fs sp (restorePhase0 fs sp cl).2.1).2.1).1 ++
        [Event.progress 100 "Restore complete!", Event.finished true "Restore complete"],
        Outcome.ok) := by
  simp only [restore_run_core]
  rw [if_pos h0, if_pos h1, if_pos h2]

theorem backup_run_of_exn (fs : FS) (sp : BackupSpec) (cl : Option Nat) (m : String)
    (h : (backup_run_core fs sp cl).2 = Outcome.exn m) :
    backup_run fs sp cl = (backup_run_core fs sp cl).1 ++ [Event.finished false m] := by
  simp only [backup_run, h]

theorem backup_run_of_ok (fs : FS) (sp : BackupSpec) (cl : Option Nat)
    (h : (backup_run_core fs sp cl).2 = Outcome.ok) :
    backup_run fs sp cl = (backup_run_core fs sp cl).1 := by
  simp only [backup_run, h]

theorem backup_run_of_returned (fs : FS) (sp : BackupSpec) (cl : Option Nat)
    (h : (backup_run_core fs sp cl).2 = Outcome.returned) :
    backup_run fs sp cl = (backup_run_core fs sp cl).1 := by
  simp only [backup_run, h]

theorem restore_run_of_exn (fs : FS) (sp : RestoreSpec) (cl : Option Nat) (m : String)
    (h : (restore_run_core fs sp cl).2 = Outcome.exn m) :
    restore_run fs sp cl = (restore_run_core fs sp cl).1 ++ [Event.finished false m] := by
  simp only [restore_run, h]

theorem restore_run_of_ok (fs : FS) (sp : RestoreSpec) (cl : Option Nat)
    (h : (restore_run_core fs sp cl).2 = Outcome.ok) :
    restore_run fs sp cl = (restore_run_core fs sp cl).1 := by
  simp only [restore_run, h]

theorem restore_run_of_returned (fs : FS) (sp : RestoreSpec) (cl : Option Nat)
    (h : (restore_run_core fs sp cl).2 = Outcome.returned) :
    restore_run fs sp cl = (restore_run_core fs sp cl).1 := by
  simp only [restore_run, h]

theorem backupPhase1_finished (fs : FS) (sp : BackupSpec) (cl : Option Nat) :
    ((backupPhase1 fs sp cl).2.2 = Outcome.returned →
      ∃ pre, (backupPhase1 fs sp cl).1 = pre ++ [Event.finished false "Cancelled"] ∧
        finishedCount pre = 0) ∧
    ((backupPhase1 fs sp cl).2.2 ≠ Outcome.returned →
      finishedCount (backupPhase1 fs sp cl).1 = 0) := by
  by_cases hit : sp.backupItems ≠ []
  · simp only [backupPhase1, if_pos hit]
    have h := workerLoop_finished
      (backupItemStep fs sp.sourcePath sp.backupFolder sp.backupItems.length)
      (fun i s x =>
        (backupItemStep_facts fs sp.sourcePath sp.backupFolder sp.backupItems.length i s x).2.1)
      (fun i s x =>
        (backupItemStep_facts fs sp.sourcePath sp.backupFolder sp.backupItems.length i s x).2.2.1)
      sp.backupItems 0 () cl
    constructor
    · intro hret
      obtain ⟨pre, hpre, hc⟩ := h.1 hret
      refine ⟨Event.log ("Backing up " ++ toString sp.backupItems.length ++ " items...") ::
        pre, ?_, ?_⟩
      · rw [hpre]
        rfl
      · rw [finishedCount_cons_nf (Event.log _) _ rfl, hc]
    · intro hret
      rw [finishedCount_cons_nf (Event.log _) _ rfl, h.2 hret]
  · simp only [backupPhase1, if_neg hit]
    have h := workerLoop_finished
      (backupFallbackStep fs sp.sourcePath sp.backupFolder (fs.listDir sp.sourcePath).length)
      (fun i s x =>
        (backupFallbackStep_facts fs sp.sourcePath sp.backupFolder
          (fs.listDir sp.sourcePath).length i s x).2.1)
      (fun i s x =>
        (backupFallbackStep_facts fs sp.sourcePath sp.backupFolder
          (fs.listDir sp.sourcePath).length i s x).2.2.1)
      (fs.listDir sp.sourcePath) 0 () cl
    constructor
    · intro hret
      obtain ⟨pre, hpre, hc⟩ := h.1 hret
      refine ⟨Event.log ("Backing up " ++ toString (fs.listDir sp.sourcePath).length ++
        " items (full)...") :: pre, ?_, ?_⟩
      · rw [hpre]
        rfl
      · rw [finishedCount_cons_nf (Event.log _) _ rfl, hc]
    · intro hret
      rw [finishedCount_cons_nf (Event.log _) _ rfl, h.2 hret]

theorem backupPhase2_finished (fs : FS) (sp : BackupSpec) (cl : Option Nat) :
    ((backupPhase2 fs sp cl).2 = Outcome.returned →
      ∃ pre, (backupPhase2 fs sp cl).1 = pre ++ [Event.finished false "Cancelled"] ∧
        finishedCount pre = 0) ∧
    ((backupPhase2 fs sp cl).2 ≠ Outcome.returned →
      finishedCount (backupPhase2 fs sp cl).1 = 0) := by
  by_cases had : sp.addonPaths ≠ []
  · simp only [backupPhase2, if_pos had]
    have h := workerLoop_finished
      (backupAddonStep fs (joinPath sp.backupFolder "_addons") sp.addonPaths.length)
      (fun i s x =>
        (backupAddonStep_facts fs (joinPath sp.backupFolder "_addons")
          sp.addonPaths.length i s x).2.1)
      (fun i s x =>
        (backupAddonStep_facts fs (joinPath sp.backupFolder "_addons")
          sp.addonPaths.length i s x).2.2.1)
      sp.addonPaths 0 none cl
    constructor
    · intro hret
      obtain ⟨pre, hpre, hc⟩ := h.1 hret
      refine ⟨Event.log ("Backing up " ++ toString sp.addonPaths.length ++
        " addon folder(s)...") :: pre, ?_, ?_⟩
      · rw [hpre]
        rfl
      · rw [finishedCount_cons_nf (Event.log _) _ rfl, hc]
    · intro hret
      rw [finishedCount_cons_nf (Event.log _) _ rfl, h.2 hret]
  · simp only [backupPhase2, if_neg had]
    exact ⟨fun h => absurd h (by simp), fun _ => rfl⟩

theorem restorePhase0_finished (fs : FS) (sp : RestoreSpec) (cl : Option Nat) :
    ((restorePhase0 fs sp cl).2.2 = Outcome.returned →
      ∃ pre, (restorePhase0 fs sp cl).1 = pre ++ [Event.finished false "Cancelled"] ∧
        finishedCount pre = 0) ∧
    ((restorePhase0 fs sp cl).2.2 ≠ Outcome.returned →
      finishedCount (restorePhase0 fs sp cl).1 = 0) := by
  by_cases hex : fs.pathExists sp.targetPath
  · simp only [restorePhase0, if_pos hex]
    exact workerLoop_finished (restoreDeleteStep fs sp.targetPath)
      (fun i s x => (restoreDeleteStep_facts fs sp.targetPath i s x).2.1)
      (fun i s x => (restoreDeleteStep_facts fs sp.targetPath i s x).2.2.1)
      (fs.listDir sp.targetPath) 0 () cl
  · simp only [restorePhase0, if_neg hex]
    exact ⟨fun h => absurd h (by simp), fun _ => rfl⟩

theorem restorePhase1_finished (fs : FS) (sp : RestoreSpec) (cl : Option Nat) :
    ((restorePhase1 fs sp cl).2.2 = Outcome.returned →
      ∃ pre, (restorePhase1 fs sp cl).1 = pre ++ [Event.finished false "Cancelled"] ∧
        finishedCount pre = 0) ∧
    ((restorePhase1 fs sp cl).2.2 ≠ Outcome.returned →
      finishedCount (restorePhase1 fs sp cl).1 = 0) := by
  simp only [restorePhase1]
  exact workerLoop_finished
    (restoreItemStep fs sp.backupFolder sp.targetPath
      ((fs.listDir sp.backupFolder).filter (fun f => f ≠ "_addons")).length)
    (fun i s x => (restoreItemStep_facts fs sp.backupFolder sp.targetPath _ i s x).2.1)
    (fun i s x => (restoreItemStep_facts fs sp.backupFolder sp.targetPath _ i s x).2.2.1)
    ((fs.listDir sp.backupFolder).filter (fun f => f ≠ "_addons")) 0 () cl

theorem restorePhase2_finished (fs : FS) (sp : RestoreSpec) (cl : Option Nat) :
    ((restorePhase2 fs sp cl).2 = Outcome.returned →
      ∃ pre, (restorePhase2 fs sp cl).1 = pre ++ [Event.finished false "Cancelled"] ∧
        finishedCount pre = 0) ∧
    ((restorePhase2 fs sp cl).2 ≠ Outcome.returned →
      finishedCount (restorePhase2 fs sp cl).1 = 0) := by
  by_cases hcond : fs.pathExists (joinPath sp.backupFolder "_addons") ∧ sp.addonPaths ≠ []
  · simp only [restorePhase2, if_pos hcond]
    have h := workerLoop_finished
      (restoreAddonStep fs (joinPath sp.backupFolder "_addons") sp.addonPaths.length)
      (fun i s x =>
        (restoreAddonStep_facts fs (joinPath sp.backupFolder "_addons")
          sp.addonPaths.length i s x).2.1)
      (fun i s x =>
        (restoreAddonStep_facts fs (joinPath sp.backupFolder "_addons")
          sp.addonPaths.length i s x).2.2.1)
      sp.addonPaths 0 () cl
    constructor
    · intro hret
      obtain ⟨pre, hpre, hc⟩ := h.1 hret
      refine ⟨Event.log ("Restoring " ++ toString sp.addonPaths.length ++
        " addon folder(s)...") :: pre, ?_, ?_⟩
      · rw [hpre]
        rfl
      · rw [finishedCount_cons_nf (Event.log _) _ rfl, hc]
    · intro hret
      rw [finishedCount_cons_nf (Event.log _) _ rfl, h.2 hret]
  · simp only [restorePhase2, if_neg hcond]
    exact ⟨fun h => absurd h (by simp), fun _ => rfl⟩

theorem backup_run_core_finished (fs : FS) (sp : BackupSpec) (cl : Option Nat) :
    ((backup_run_core fs sp cl).2 = Outcome.ok →
      ∃ pre, (backup_run_core fs sp cl).1 =
        pre ++ [Event.finished true "Backup complete"] ∧ finishedCount pre = 0) ∧
    ((backup_run_core fs sp cl).2 = Outcome.returned →
      ∃ pre, (backup_run_core fs sp cl).1 =
        pre ++ [Event.finished false "Cancelled"] ∧ finishedCount pre = 0) ∧
    (∀ m, (backup_run_core fs sp cl).2 = Outcome.exn m →
      finishedCount (backup_run_core fs sp cl).1 = 0) := by
  cases ho1 : (backupPhase1 fs sp cl).2.2 with
  | returned =>
    have hcore : backup_run_core fs sp cl =
        ((backupPhase1 fs sp cl).1, Outcome.returned) := by
      rw [backup_run_core_p1_stop fs sp cl (by rw [ho1]; simp), ho1]
    refine ⟨fun h => by simp [hcore] at h, fun _ => ?_, fun m h => by simp [hcore] at h⟩
    rw [hcore]
    exact (backupPhase1_finished fs sp cl).1 ho1
  | exn m0 =>
    have hcore : backup_run_core fs sp cl =
        ((backupPhase1 fs sp cl).1, Outcome.exn m0) := by
      rw [backup_run_core_p1_stop fs sp cl (by rw [ho1]; simp), ho1]
    refine ⟨fun h => by simp [hcore] at h, fun h => by simp [hcore] at h, fun m h => ?_⟩
    rw [hcore]
    exact (backupPhase1_finished fs sp cl).2 (by rw [ho1]; simp)
  | ok =>
    have hfc1 : finishedCount (backupPhase1 fs sp cl).1 = 0 :=
      (backupPhase1_finished fs sp cl).2 (by rw [ho1]; simp)
    cases ho2 : (backupPhase2 fs sp (backupPhase1 fs sp cl).2.1).2 with
    | returned =>
      have hcore : backup_run_core fs sp cl =
          ((backupPhase1 fs sp cl).1 ++
            (backupPhase2 fs sp (backupPhase1 fs sp cl).2.1).1, Outcome.returned) := by
        rw [backup_run_core_p2_stop fs sp cl ho1 (by rw [ho2]; simp), ho2]
      refine ⟨fun h => by simp [hcore] at h, fun _ => ?_, fun m h => by simp [hcore] at h⟩
      obtain ⟨pre, hpre, hc⟩ := (backupPhase2_finished fs sp
        (backupPhase1 fs sp cl).2.1).1 ho2
      rw [hcore]
      refine ⟨(backupPhase1 fs sp cl).1 ++ pre, ?_, ?_⟩
      · rw [hpre]
        simp
      · rw [finishedCount_append, hfc1, hc]
    | exn m0 =>
      have hcore : backup_run_core fs sp cl =
          ((backupPhase1 fs sp cl).1 ++
            (backupPhase2 fs sp (backupPhase1 fs sp cl).2.1).1, Outcome.exn m0) := by
        rw [backup_run_core_p2_stop fs sp cl ho1 (by rw [ho2]; simp), ho2]
      refine ⟨fun h => by simp [hcore] at h, fun h => by simp [hcore] at h, fun m h => ?_⟩
      rw [hcore]
      rw [finishedCount_append, hfc1,
        (backupPhase2_finished fs sp (backupPhase1 fs sp cl).2.1).2 (by rw [ho2]; simp)]
    | ok =>
      have hcore := backup_run_core_all_ok fs sp cl ho1 ho2
      have hfc2 : finishedCount (backupPhase2 fs sp (backupPhase1 fs sp cl).2.1).1 = 0 :=
        (backupPhase2_finished fs sp (backupPhase1 fs sp cl).2.1).2 (by rw [ho2]; simp)
      refine ⟨fun _ => ?_, fun h => by simp [hcore] at h, fun m h => by simp [hcore] at h⟩
      rw [hcore]
      refine ⟨(backupPhase1 fs sp cl).1 ++
        (backupPhase2 fs sp (backupPhase1 fs sp cl).2.1).1 ++
        [Event.progress 100 "Backup complete!"], ?_, ?_⟩
      · simp
      · rw [finishedCount_append, finishedCount_append, hfc1, hfc2]
        rfl

theorem restore_run_core_finished (fs : FS) (sp : RestoreSpec) (cl : Option Nat) :
    ((restore_run_core fs sp cl).2 = Outcome.ok →
      ∃ pre, (restore_run_core fs sp cl).1 =
        pre ++ [Event.finished true "Restore complete"] ∧ finishedCount pre = 0) ∧
    ((restore_run_core fs sp cl).2 = Outcome.returned →
      ∃ pre, (restore_run_core fs sp cl).1 =
        pre ++ [Event.finished false "Cancelled"] ∧ finishedCount pre = 0) ∧
    (∀ m, (restore_run_core fs sp cl).2 = Outcome.exn m →
      finishedCount (restore_run_core fs sp cl).1 = 0) := by
  cases ho0 : (restorePhase0 fs sp cl).2.2 with
  | returned =>
    have hcore : restore_run_core fs sp cl =
        (Event.progress 10 "Removing existing data..." :: (restorePhase0 fs sp cl).1,
          Outcome.returned) := by
      rw [restore_run_core_p0_stop fs sp cl (by rw [ho0]; simp), ho0]
    refine ⟨fun h => by simp [hcore] at h, fun _ => ?_, fun m h => by simp [hcore] at h⟩
    obtain ⟨pre, hpre, hc⟩ := (restorePhase0_finished fs sp cl).1 ho0
    rw [hcore]
    refine ⟨Event.progress 10 "Removing existing data..." :: pre, ?_, ?_⟩
    · rw [hpre]
      rfl
    · rw [finishedCount_cons_nf (Event.progress _ _) _ rfl, hc]
  | exn m0 =>
    have hcore : restore_run_core fs sp cl =
        (Event.progress 10 "Removing existing data..." :: (restorePhase0 fs sp cl).1,
          Outcome.exn m0) := by
      rw [restore_run_core_p0_stop fs sp cl (by rw [ho0]; simp), ho0]
    refine ⟨fun h => by simp [hcore] at h, fun h => by simp [hcore] at h, fun m h => ?_⟩
    rw [hcore]
    rw [finishedCount_cons_nf (Event.progress _ _) _ rfl,
      (restorePhase0_finished fs sp cl).2 (by rw [ho0]; simp)]
  | ok =>
    have hfc0 : finishedCount (restorePhase0 fs sp cl).1 = 0 :=
      (restorePhase0_finished fs sp cl).2 (by rw [ho0]; simp)
    cases ho1 : (restorePhase1 fs sp (restorePhase0 fs sp cl).2.1).2.2 with
    | returned =>
      have hcore : restore_run_core fs sp cl =
          ((Event.progress 10 "Removing existing data..." :: (restorePhase0 fs sp cl).1) ++
            Event.progress 30 "Restoring data..." ::
              (restorePhase1 fs sp (restorePhase0 fs sp cl).2.1).1,
            Outcome.returned) := by
        rw [restore_run_core_p1_stop fs sp cl ho0 (by rw [ho1]; simp), ho1]
      refine ⟨fun h => by simp [hcore] at h, fun _ => ?_, fun m h => by simp [hcore] at h⟩
      obtain ⟨pre, hpre, hc⟩ := (restorePhase1_finished fs sp
        (restorePhase0 fs sp cl).2.1).1 ho1
      rw [hcore]
      refine ⟨(Event.progress 10 "Removing existing data..." :: (restorePhase0 fs sp cl).1) ++
        Event.progress 30 "Restoring data..." :: pre, ?_, ?_⟩
      · rw [hpre]
        simp
      · rw [finishedCount_append,
          finishedCount_cons_nf (Event.progress _ _) _ rfl, hfc0,
          finishedCount_cons_nf (Event.progress _ _) _ rfl, hc]
    | exn m0 =>
      have hcore : restore_run_core fs sp cl =
          ((Event.progress 10 "Removing existing data..." :: (restorePhase0 fs sp cl).1) ++
            Event.progress 30 "Restoring data..." ::
              (restorePhase1 fs sp (restorePhase0 fs sp cl).2.1).1,
            Outcome.exn m0) := by
        rw [restore_run_core_p1_stop fs sp cl ho0 (by rw [ho1]; simp), ho1]
      refine ⟨fun h => by simp [hcore] at h, fun h => by simp [hcore] at h, fun m h => ?_⟩
      rw [hcore]
      rw [finishedCount_append,
        finishedCount_cons_nf (Event.progress _ _) _ rfl, hfc0,
        finishedCount_cons_nf (Event.progress _ _) _ rfl,
        (restorePhase1_finished fs sp (restorePhase0 fs sp cl).2.1).2 (by rw [ho1]; simp)]
    | ok =>
      have hfc1 : finishedCount (restorePhase1 fs sp (restorePhase0 fs sp cl).2.1).1 = 0 :=
        (restorePhase1_finished fs sp (restorePhase0 fs sp cl).2.1).2 (by rw [ho1]; simp)
      cases ho2 : (restorePhase2 fs sp
          (restorePhase1 fs sp (restorePhase0 fs sp cl).2.1).2.1).2 with
      | returned =>
        have hcore := restore_run_core_p2_stop fs sp cl ho0 ho1 (by rw [ho2]; simp)
        rw [ho2] at hcore
        refine ⟨fun h => by simp [hcore] at h, fun _ => ?_, fun m h => by simp [hcore] at h⟩
        obtain ⟨pre, hpre, hc⟩ := (restorePhase2_finished fs sp
          (restorePhase1 fs sp (restorePhase0 fs sp cl).2.1).2.1).1 ho2
        rw [hcore]
        refine ⟨((Event.progress 10 "Removing existing data..." ::
            (restorePhase0 fs sp cl).1) ++
          Event.progress 30 "Restoring data..." ::
            (restorePhase1 fs sp (restorePhase0 fs sp cl).2.1).1) ++ pre, ?_, ?_⟩
        · rw [hpre]
          simp
        · rw [finishedCount_append, finishedCount_append,
            finishedCount_cons_nf (Event.progress _ _) _ rfl, hfc0,
            finishedCount_cons_nf (Event.progress _ _) _ rfl, hfc1, hc]
      | exn m0 =>
        have hcore := restore_run_core_p2_stop fs sp cl ho0 ho1 (by rw [ho2]; simp)
        rw [ho2] at hcore
        refine ⟨fun h => by simp [hcore] at h, fun h => by simp [hcore] at h, fun m h => ?_⟩
        rw [hcore]
        rw [finishedCount_append, finishedCount_append,
          finishedCount_cons_nf (Event.progress _ _) _ rfl, hfc0,
          finishedCount_cons_nf (Event.progress _ _) _ rfl, hfc1,
          (restorePhase2_finished fs sp
            (restorePhase1 fs sp (restorePhase0 fs sp cl).2.1).2.1).2 (by rw [ho2]; simp)]
      | ok =>
        have hcore := restore_run_core_all_ok fs sp cl ho0 ho1 ho2
        have hfc2 : finishedCount (restorePhase2 fs sp
            (restorePhase1 fs sp (restorePhase0 fs sp cl).2.1).2.1).1 = 0 :=
          (restorePhase2_finished fs sp
            (restorePhase1 fs sp (restorePhase0 fs sp cl).2.1).2.1).2 (by rw [ho2]; simp)
        refine ⟨fun _ => ?_, fun h => by simp [hcore] at h, fun m h => by simp [hcore] at h⟩
        rw [hcore]
        refine ⟨((Event.progress 10 "Removing existing data..." ::
            (restorePhase0 fs sp cl).1) ++
          Event.progress 30 "Restoring data..." ::
            (restorePhase1 fs sp (restorePhase0 fs sp cl).2.1).1) ++
          (restorePhase2 fs sp
            (restorePhase1 fs sp (restorePhase0 fs sp cl).2.1).2.1).1 ++
          [Event.progress 100 "Restore complete!"], ?_, ?_⟩
        · simp
        · rw [finishedCount_append, finishedCount_append, finishedCount_append,
            finishedCount_cons_nf (Event.progress _ _) _ rfl, hfc0,
            finishedCount_cons_nf (Event.progress _ _) _ rfl, hfc1, hfc2]
          rfl

/-- C4: every execution of a worker run emits exactly one terminal
finished event, it is the last event emitted, and a body that ends with an
escaped exception is converted by the top-level handler to
finished(false, str(exception)). -/
theorem C4_single_terminal (fs : FS) (bsp : BackupSpec) (rsp : RestoreSpec)
    (clb clr : Option Nat) :
    (∃ b m pre, backup_run fs bsp clb = pre ++ [Event.finished b m] ∧
      finishedCount pre = 0) ∧
    (∀ m, (backup_run_core fs bsp clb).2 = Outcome.exn m →
      backup_run fs bsp clb = (backup_run_core fs bsp clb).1 ++ [Event.finished false m]) ∧
    (∃ b m pre, restore_run fs rsp clr = pre ++ [Event.finished b m] ∧
      finishedCount pre = 0) ∧
    (∀ m, (restore_run_core fs rsp clr).2 = Outcome.exn m →
      restore_run fs rsp clr = (restore_run_core fs rsp clr).1 ++ [Event.finished false m]) := by
  refine ⟨?_, fun m h => backup_run_of_exn fs bsp clb m h, ?_,
    fun m h => restore_run_of_exn fs rsp clr m h⟩
  · cases ho : (backup_run_core fs bsp clb).2 with
    | ok =>
      obtain ⟨pre, hpre, hc⟩ := (backup_run_core_finished fs bsp clb).1 ho
      exact ⟨true, "Backup complete", pre, by rw [backup_run_of_ok fs bsp clb ho, hpre], hc⟩
    | returned =>
      obtain ⟨pre, hpre, hc⟩ := (backup_run_core_finished fs bsp clb).2.1 ho
      exact ⟨false, "Cancelled", pre,
        by rw [backup_run_of_returned fs bsp clb ho, hpre], hc⟩
    | exn m0 =>
      exact ⟨false, m0, (backup_run_core fs bsp clb).1,
        backup_run_of_exn fs bsp clb m0 ho,
        (backup_run_core_finished fs bsp clb).2.2 m0 ho⟩
  · cases ho : (restore_run_core fs rsp clr).2 with
    | ok =>
      obtain ⟨pre, hpre, hc⟩ := (restore_run_core_finished fs rsp clr).1 ho
      exact ⟨true, "Restore complete", pre,
        by rw [restore_run_of_ok fs rsp clr ho, hpre], hc⟩
    | returned =>
      obtain ⟨pre, hpre, hc⟩ := (restore_run_core_finished fs rsp clr).2.1 ho
      exact ⟨false, "Cancelled", pre,
        by rw [restore_run_of_returned fs rsp clr ho, hpre], hc⟩
    | exn m0 =>
      exact ⟨false, m0, (restore_run_core fs rsp clr).1,
        restore_run_of_exn fs rsp clr m0 ho,
        (restore_run_core_finished fs rsp clr).2.2 m0 ho⟩

/-- Witness for C4: on the fixture whose first addon path is missing, the
body ends with the unbound addon_name exception and the top-level handler
appends exactly finished(false, message). -/
theorem C4_single_terminal_witness :
    (backup_run_core wfsB wspB10 none).2 = Outcome.exn unboundAddonNameMsg ∧
    backup_run wfsB wspB10 none =
      (backup_run_core wfsB wspB10 none).1 ++ [Event.finished false unboundAddonNameMsg] := by
  refine ⟨by decide, ?_⟩
  exact (C4_single_terminal wfsB wspB10 wspR none none).2.1 unboundAddonNameMsg (by decide)

theorem checkCount_cons_nc (e : Event) (tr : List Event) (h : isCheckEv e = false) :
    checkCount (e :: tr) = checkCount tr := by
  simp [checkCount, List.countP_cons, h]

theorem truncBeforeCheck_cons_of_ne (k : Nat) (e : Event) (tl : List Event)
    (he : e ≠ Event.check) :
    truncBeforeCheck k (e :: tl) = e :: truncBeforeCheck k tl := by
  simp only [truncBeforeCheck, if_neg he]

theorem truncBeforeCheck_append_of_ge (k : Nat) (a b : List Event)
    (h : checkCount a ≤ k) :
    truncBeforeCheck k (a ++ b) = a ++ truncBeforeCheck (k - checkCount a) b := by
  induction a generalizing k with
  | nil => simp [checkCount]
  | cons e tl ih =>
    by_cases he : e = Event.check
    · subst he
      rw [checkCount_check_cons] at h
      cases k with
      | zero => omega
      | succ k2 =>
        rw [List.cons_append, truncBeforeCheck_check_cons, checkCount_check_cons]
        have harith : k2 + 1 - (checkCount tl + 1) = k2 - checkCount tl := by omega
        rw [harith]
        exact congrArg (Event.check :: ·) (ih k2 (by omega))
    · have hcc : checkCount (e :: tl) = checkCount tl := by
        apply checkCount_cons_nc
        cases e <;> simp_all [isCheckEv]
      rw [hcc] at h
      rw [List.cons_append, truncBeforeCheck_cons_of_ne _ _ _ he, hcc, ih k h]
      simp

theorem workerLoop_none_cl {σ α : Type} (step : Nat → σ → α → List Event × σ × Outcome) :
    ∀ (l : List α) (i : Nat) (s : σ), (workerLoop step l i s none).2.1 = none := by
  intro l
  induction l with
  | nil =>
    intro i s
    rw [workerLoop_nil]
  | cons x rest ih =>
    intro i s
    by_cases ho : (step i s x).2.2 = Outcome.ok
    · rw [workerLoop_cons_ok step x rest i s none cancelNow_none ho]
      exact ih (i + 1) ((step i s x).2.1)
    · rw [workerLoop_cons_stop step x rest i s none cancelNow_none ho]
      rfl

theorem workerLoop_ok_checkCount {σ α : Type} (step : Nat → σ → α → List Event × σ × Outcome)
    (hchk : ∀ i s x, Event.check ∉ (step i s x).1) :
    ∀ (l : List α) (i : Nat) (s : σ),
      (workerLoop step l i s none).2.2 = Outcome.ok →
      checkCount (workerLoop step l i s none).1 = l.length := by
  intro l
  induction l with
  | nil =>
    intro i s _
    rw [workerLoop_nil]
    rfl
  | cons x rest ih =>
    intro i s hok
    by_cases ho : (step i s x).2.2 = Outcome.ok
    · rw [workerLoop_cons_ok step x rest i s none cancelNow_none ho] at hok ⊢
      simp only [cancelStep_none] at hok ⊢
      rw [checkCount_check_cons, checkCount_append, checkCount_eq_zero _ (hchk i s x),
        ih (i + 1) ((step i s x).2.1) hok]
      simp
    · rw [workerLoop_cons_stop step x rest i s none cancelNow_none ho] at hok
      exact absurd hok ho

theorem workerLoop_cancel_cc {σ α : Type} (step : Nat → σ → α → List Event × σ × Outcome)
    (hchk : ∀ i s x, Event.check ∉ (step i s x).1) (l : List α) (s : σ) (k : Nat) :
    (k < checkCount (workerLoop step l 0 s none).1 →
      (workerLoop step l 0 s (some k)).1 =
        truncBeforeCheck k (workerLoop step l 0 s none).1 ++
          [Event.finished false "Cancelled"] ∧
      (workerLoop step l 0 s (some k)).2.2 = Outcome.returned) ∧
    (checkCount (workerLoop step l 0 s none).1 ≤ k →
      (workerLoop step l 0 s (some k)).1 = (workerLoop step l 0 s none).1 ∧
      (workerLoop step l 0 s (some k)).2.2 = (workerLoop step l 0 s none).2.2 ∧
      ((workerLoop step l 0 s none).2.2 = Outcome.ok →
        (workerLoop step l 0 s (some k)).2.1 =
          some (k - checkCount (workerLoop step l 0 s none).1))) := by
  have hcan := workerLoop_cancel step hchk l 0 s k
  refine ⟨hcan.1, fun hk => ?_⟩
  obtain ⟨hev, hout, hcl⟩ := hcan.2 hk
  refine ⟨hev, hout, fun hok => ?_⟩
  rw [hcl hok, workerLoop_ok_checkCount step hchk l 0 s hok]

theorem workerLoop_cancel_withHeader {σ α : Type}
    (step : Nat → σ → α → List Event × σ × Outcome)
    (hchk : ∀ i s x, Event.check ∉ (step i s x).1)
    (hdr : String) (l : List α) (s : σ) (k : Nat) :
    (k < checkCount (Event.log hdr :: (workerLoop step l 0 s none).1) →
      (Event.log hdr :: (workerLoop step l 0 s (some k)).1) =
        truncBeforeCheck k (Event.log hdr :: (workerLoop step l 0 s none).1) ++
          [Event.finished false "Cancelled"] ∧
      (workerLoop step l 0 s (some k)).2.2 = Outcome.returned) ∧
    (checkCount (Event.log hdr :: (workerLoop step l 0 s none).1) ≤ k →
      (Event.log hdr :: (workerLoop step l 0 s (some k)).1) =
        (Event.log hdr :: (workerLoop step l 0 s none).1) ∧
      (workerLoop step l 0 s (some k)).2.2 = (workerLoop step l 0 s none).2.2 ∧
      ((workerLoop step l 0 s none).2.2 = Outcome.ok →
        (workerLoop step l 0 s (some k)).2.1 =
          some (k - checkCount (Event.log hdr :: (workerLoop step l 0 s none).1)))) := by
  have hcc : checkCount (Event.log hdr :: (workerLoop step l 0 s none).1) =
      checkCount (workerLoop step l 0 s none).1 := checkCount_cons_nc _ _ rfl
  have hcan := workerLoop_cancel_cc step hchk l s k
  rw [hcc]
  constructor
  · intro hk
    obtain ⟨hev, hout⟩ := hcan.1 hk
    refine ⟨?_, hout⟩
    rw [truncBeforeCheck_cons_of_ne _ _ _ (by simp), hev]
    rfl
  · intro hk
    obtain ⟨hev, hout, hcl⟩ := hcan.2 hk
    exact ⟨by rw [hev], hout, hcl⟩

theorem backupPhase1_cancel (fs : FS) (sp : BackupSpec) (k : Nat) :
    (k < checkCount (backupPhase1 fs sp none).1 →
      (backupPhase1 fs sp (some k)).1 =
        truncBeforeCheck k (backupPhase1 fs sp none).1 ++
          [Event.finished false "Cancelled"] ∧
      (backupPhase1 fs sp (some k)).2.2 = Outcome.returned) ∧
    (checkCount (backupPhase1 fs sp none).1 ≤ k →
      (backupPhase1 fs sp (some k)).1 = (backupPhase1 fs sp none).1 ∧
      (backupPhase1 fs sp (some k)).2.2 = (backupPhase1 fs sp none).2.2 ∧
      ((backupPhase1 fs sp none).2.2 = Outcome.ok →
        (backupPhase1 fs sp (some k)).2.1 =
          some (k - checkCount (backupPhase1 fs sp none).1))) := by
  by_cases hit : sp.backupItems ≠ []
  · simp only [backupPhase1, if_pos hit]
    exact workerLoop_cancel_withHeader
      (backupItemStep fs sp.sourcePath sp.backupFolder sp.backupItems.length)
      (fun i s x =>
        (backupItemStep_facts fs sp.sourcePath sp.backupFolder sp.backupItems.length i s x).1)
      _ sp.backupItems () k
  · simp only [backupPhase1, if_neg hit]
    exact workerLoop_cancel_withHeader
      (backupFallbackStep fs sp.sourcePath sp.backupFolder (fs.listDir sp.sourcePath).length)
      (fun i s x =>
        (backupFallbackStep_facts fs sp.sourcePath sp.backupFolder
          (fs.listDir sp.sourcePath).length i s x).1)
      _ (fs.listDir sp.sourcePath) () k

theorem backupPhase2_cancel (fs : FS) (sp : BackupSpec) (k : Nat) :
    (k < checkCount (backupPhase2 fs sp none).1 →
      (backupPhase2 fs sp (some k)).1 =
        truncBeforeCheck k (backupPhase2 fs sp none).1 ++
          [Event.finished false "Cancelled"] ∧
      (backupPhase2 fs sp (some k)).2 = Outcome.returned) ∧
    (checkCount (backupPhase2 fs sp none).1 ≤ k →
      (backupPhase2 fs sp (some k)).1 = (backupPhase2 fs sp none).1 ∧
      (backupPhase2 fs sp (some k)).2 = (backupPhase2 fs sp none).2) := by
  by_cases had : sp.addonPaths ≠ []
  · simp only [backupPhase2, if_pos had]
    have h := workerLoop_cancel_withHeader
      (backupAddonStep fs (joinPath sp.backupFolder "_addons") sp.addonPaths.length)
      (fun i s x =>
        (backupAddonStep_facts fs (joinPath sp.backupFolder "_addons")
          sp.addonPaths.length i s x).1)
      ("Backing up " ++ toString sp.addonPaths.length ++ " addon folder(s)...")
      sp.addonPaths none k
    exact ⟨fun hk => (h.1 hk), fun hk => ⟨(h.2 hk).1, (h.2 hk).2.1⟩⟩
  · simp only [backupPhase2, if_neg had]
    refine ⟨fun hk => ?_, fun _ => by simp⟩
    simp [checkCount] at hk

theorem restorePhase0_cancel (fs : FS) (sp : RestoreSpec) (k : Nat) :
    (k < checkCount (restorePhase0 fs sp none).1 →
      (restorePhase0 fs sp (some k)).1 =
        truncBeforeCheck k (restorePhase0 fs sp none).1 ++
          [Event.finished false "Cancelled"] ∧
      (restorePhase0 fs sp (some k)).2.2 = Outcome.returned) ∧
    (checkCount (restorePhase0 fs sp none).1 ≤ k →
      (restorePhase0 fs sp (some k)).1 = (restorePhase0 fs sp none).1 ∧
      (restorePhase0 fs sp (some k)).2.2 = (restorePhase0 fs sp none).2.2 ∧
      ((restorePhase0 fs sp none).2.2 = Outcome.ok →
        (restorePhase0 fs sp (some k)).2.1 =
          some (k - checkCount (restorePhase0 fs sp none).1))) := by
  by_cases hex : fs.pathExists sp.targetPath
  · simp only [restorePhase0, if_pos hex]
    exact workerLoop_cancel_cc (restoreDeleteStep fs sp.targetPath)
      (fun i s x => (restoreDeleteStep_facts fs sp.targetPath i s x).1)
      (fs.listDir sp.targetPath) () k
  · simp only [restorePhase0, if_neg hex]
    refine ⟨fun hk => ?_, fun _ => ?_⟩
    · simp [checkCount] at hk
    · refine ⟨by simp, by simp, fun _ => by simp [checkCount]⟩

theorem restorePhase1_cancel (fs : FS) (sp : RestoreSpec) (k : Nat) :
    (k < checkCount (restorePhase1 fs sp none).1 →
      (restorePhase1 fs sp (some k)).1 =
        truncBeforeCheck k (restorePhase1 fs sp none).1 ++
          [Event.finished false "Cancelled"] ∧
      (restorePhase1 fs sp (some k)).2.2 = Outcome.returned) ∧
    (checkCount (restorePhase1 fs sp none).1 ≤ k →
      (restorePhase1 fs sp (some k)).1 = (restorePhase1 fs sp none).1 ∧
      (restorePhase1 fs sp (some k)).2.2 = (restorePhase1 fs sp none).2.2 ∧
      ((restorePhase1 fs sp none).2.2 = Outcome.ok →
        (restorePhase1 fs sp (some k)).2.1 =
          some (k - checkCount (restorePhase1 fs sp none).1))) := by
  simp only [restorePhase1]
  exact workerLoop_cancel_cc
    (restoreItemStep fs sp.backupFolder sp.targetPath
      ((fs.listDir sp.backupFolder).filter (fun f => f ≠ "_addons")).length)
    (fun i s x => (restoreItemStep_facts fs sp.backupFolder sp.targetPath _ i s x).1)
    ((fs.listDir sp.backupFolder).filter (fun f => f ≠ "_addons")) () k

theorem restorePhase2_cancel (fs : FS) (sp : RestoreSpec) (k : Nat) :
    (k < checkCount (restorePhase2 fs sp none).1 →
      (restorePhase2 fs sp (some k)).1 =
        truncBeforeCheck k (restorePhase2 fs sp none).1 ++
          [Event.finished false "Cancelled"] ∧
      (restorePhase2 fs sp (some k)).2 = Outcome.returned) ∧
    (checkCount (restorePhase2 fs sp none).1 ≤ k →
      (restorePhase2 fs sp (some k)).1 = (restorePhase2 fs sp none).1 ∧
      (restorePhase2 fs sp (some k)).2 = (restorePhase2 fs sp none).2) := by
  by_cases hcond : fs.pathExists (joinPath sp.backupFolder "_addons") ∧ sp.addonPaths ≠ []
  · simp only [restorePhase2, if_pos hcond]
    have h := workerLoop_cancel_withHeader
      (restoreAddonStep fs (joinPath sp.backupFolder "_addons") sp.addonPaths.length)
      (fun i s x =>
        (restoreAddonStep_facts fs (joinPath sp.backupFolder "_addons")
          sp.addonPaths.length i s x).1)
      ("Restoring " ++ toString sp.addonPaths.length ++ " addon folder(s)...")
      sp.addonPaths () k
    exact ⟨fun hk => (h.1 hk), fun hk => ⟨(h.2 hk).1, (h.2 hk).2.1⟩⟩
  · simp only [restorePhase2, if_neg hcond]
    refine ⟨fun hk => ?_, fun _ => by simp⟩
    simp [checkCount] at hk

theorem backupPhase1_none_cl (fs : FS) (sp : BackupSpec) :
    (backupPhase1 fs sp none).2.1 = none := by
  by_cases hit : sp.backupItems ≠ []
  · simp only [backupPhase1, if_pos hit]
    exact workerLoop_none_cl _ sp.backupItems 0 ()
  · simp only [backupPhase1, if_neg hit]
    exact workerLoop_none_cl _ (fs.listDir sp.sourcePath) 0 ()

theorem restorePhase0_none_cl (fs : FS) (sp : RestoreSpec) :
    (restorePhase0 fs sp none).2.1 = none := by
  by_cases hex : fs.pathExists sp.targetPath
  · simp only [restorePhase0, if_pos hex]
    exact workerLoop_none_cl _ (fs.listDir sp.targetPath) 0 ()
  · simp only [restorePhase0, if_neg hex]

theorem restorePhase1_none_cl (fs : FS) (sp : RestoreSpec) :
    (restorePhase1 fs sp none).2.1 = none := by
  simp only [restorePhase1]
  exact workerLoop_none_cl _ _ 0 ()

theorem backupPhase1_none_noret (fs : FS) (sp : BackupSpec) :
    (backupPhase1 fs sp none).2.2 ≠ Outcome.returned := by
  by_cases hit : sp.backupItems ≠ []
  · simp only [backupPhase1, if_pos hit]
    exact workerLoop_none_outcome _
      (fun i s x =>
        (backupItemStep_facts fs sp.sourcePath sp.backupFolder sp.backupItems.length i s x).2.2.1)
      sp.backupItems 0 ()
  · simp only [backupPhase1, if_neg hit]
    exact workerLoop_none_outcome _
      (fun i s x =>
        (backupFallbackStep_facts fs sp.sourcePath sp.backupFolder
          (fs.listDir sp.sourcePath).length i s x).2.2.1)
      (fs.listDir sp.sourcePath) 0 ()

theorem restorePhase0_none_noret (fs : FS) (sp : RestoreSpec) :
    (restorePhase0 fs sp none).2.2 ≠ Outcome.returned := by
  by_cases hex : fs.pathExists sp.targetPath
  · simp only [restorePhase0, if_pos hex]
    exact workerLoop_none_outcome _
      (fun i s x => (restoreDeleteStep_facts fs sp.targetPath i s x).2.2.1)
      (fs.listDir sp.targetPath) 0 ()
  · simp only [restorePhase0, if_neg hex]
    simp

theorem restorePhase1_none_noret (fs : FS) (sp : RestoreSpec) :
    (restorePhase1 fs sp none).2.2 ≠ Outcome.returned := by
  simp only [restorePhase1]
  exact workerLoop_none_outcome _
    (fun i s x => (restoreItemStep_facts fs sp.backupFolder sp.targetPath _ i s x).2.2.1)
    _ 0 ()

theorem backupPhase2_none_noret (fs : FS) (sp : BackupSpec) :
    (backupPhase2 fs sp none).2 ≠ Outcome.returned := by
  by_cases had : sp.addonPaths ≠ []
  · simp only [backupPhase2, if_pos had]
    exact workerLoop_none_outcome _
      (fun i s x =>
        (backupAddonStep_facts fs (joinPath sp.backupFolder "_addons")
          sp.addonPaths.length i s x).2.2.1)
      sp.addonPaths 0 none
  · simp only [backupPhase2, if_neg had]
    simp

theorem restorePhase2_none_noret (fs : FS) (sp : RestoreSpec) :
    (restorePhase2 fs sp none).2 ≠ Outcome.returned := by
  by_cases hcond : fs.pathExists (joinPath sp.backupFolder "_addons") ∧ sp.addonPaths ≠ []
  · simp only [restorePhase2, if_pos hcond]
    exact workerLoop_none_outcome _
      (fun i s x =>
        (restoreAddonStep_facts fs (joinPath sp.backupFolder "_addons")
          sp.addonPaths.length i s x).2.2.1)
      sp.addonPaths 0 ()
  · simp only [restorePhase2, if_neg hcond]
    simp

theorem checkCount_backup_tail :
    checkCount [Event.progress 100 "Backup complete!",
      Event.finished true "Backup complete"] = 0 := rfl

/-- Cancellation of `BackupWorker.run` relative to its uncancelled trace:
detection at the k-th token read truncates the uncancelled event sequence
at that read and appends only the terminal Cancelled failure. -/
theorem backup_cancel_compose (fs : FS) (sp : BackupSpec) (k : Nat)
    (hk : k < checkCount (backup_run fs sp none)) :
    backup_run fs sp (some k) =
      truncBeforeCheck k (backup_run fs sp none) ++ [Event.finished false "Cancelled"] := by
  cases ho1 : (backupPhase1 fs sp none).2.2 with
  | returned => exact absurd ho1 (backupPhase1_none_noret fs sp)
  | exn m =>
    have hcober : backup_run_core fs sp none =
        ((backupPhase1 fs sp none).1, Outcome.exn m) := by
      rw [backup_run_core_p1_stop fs sp none (by rw [ho1]; simp), ho1]
    have hrun_none : backup_run fs sp none =
        (backupPhase1 fs sp none).1 ++ [Event.finished false m] := by
      rw [backup_run_of_exn fs sp none m (by rw [hcober]), hcober]
    have hcc_run : checkCount (backup_run fs sp none) =
        checkCount (backupPhase1 fs sp none).1 := by
      rw [hrun_none, checkCount_append,
        checkCount_cons_nc (Event.finished false m) _ rfl, checkCount_nil]
      omega
    rw [hcc_run] at hk
    obtain ⟨hev, hout⟩ := (backupPhase1_cancel fs sp k).1 hk
    have hcores : backup_run_core fs sp (some k) =
        ((backupPhase1 fs sp (some k)).1, Outcome.returned) := by
      rw [backup_run_core_p1_stop fs sp (some k) (by rw [hout]; simp), hout]
    have hruns : backup_run fs sp (some k) = (backupPhase1 fs sp (some k)).1 := by
      rw [backup_run_of_returned fs sp (some k) (by rw [hcores]), hcores]
    rw [hruns, hev, hrun_none, truncBeforeCheck_append_of_lt k _ _ hk]
  | ok =>
    have hfcl := backupPhase1_none_cl fs sp
    by_cases hk1 : k < checkCount (backupPhase1 fs sp none).1
    · obtain ⟨hev, hout⟩ := (backupPhase1_cancel fs sp k).1 hk1
      have hcores : backup_run_core fs sp (some k) =
          ((backupPhase1 fs sp (some k)).1, Outcome.returned) := by
        rw [backup_run_core_p1_stop fs sp (some k) (by rw [hout]; simp), hout]
      have hruns : backup_run fs sp (some k) = (backupPhase1 fs sp (some k)).1 := by
        rw [backup_run_of_returned fs sp (some k) (by rw [hcores]), hcores]
      obtain ⟨rest, hrest⟩ : ∃ rest,
          backup_run fs sp none = (backupPhase1 fs sp none).1 ++ rest := by
        cases ho2 : (backupPhase2 fs sp ((backupPhase1 fs sp none).2.1)).2 with
        | ok =>
          have hcn := backup_run_core_all_ok fs sp none ho1 ho2
          refine ⟨(backupPhase2 fs sp ((backupPhase1 fs sp none).2.1)).1 ++
            [Event.progress 100 "Backup complete!",
              Event.finished true "Backup complete"], ?_⟩
          rw [backup_run_of_ok fs sp none (by rw [hcn]), hcn]
          simp
        | returned =>
          rw [hfcl] at ho2
          exact absurd ho2 (backupPhase2_none_noret fs sp)
        | exn m =>
          have hcn := backup_run_core_p2_stop fs sp none ho1 (by rw [ho2]; simp)
          rw [ho2] at hcn
          refine ⟨(backupPhase2 fs sp ((backupPhase1 fs sp none).2.1)).1 ++
            [Event.finished false m], ?_⟩
          rw [backup_run_of_exn fs sp none m (by rw [hcn]), hcn]
          simp
      rw [hruns, hev, hrest, truncBeforeCheck_append_of_lt k _ _ hk1]
    · push_neg at hk1
      obtain ⟨hev1, hout1, hcl1⟩ := (backupPhase1_cancel fs sp k).2 hk1
      have hok1s : (backupPhase1 fs sp (some k)).2.2 = Outcome.ok := by rw [hout1, ho1]
      have hcl1v : (backupPhase1 fs sp (some k)).2.1 =
          some (k - checkCount (backupPhase1 fs sp none).1) := hcl1 ho1
      cases ho2 : (backupPhase2 fs sp none).2 with
      | returned => exact absurd ho2 (backupPhase2_none_noret fs sp)
      | ok =>
        have ho2arg : (backupPhase2 fs sp ((backupPhase1 fs sp none).2.1)).2 =
            Outcome.ok := by rw [hfcl, ho2]
        have hcn := backup_run_core_all_ok fs sp none ho1 ho2arg
        rw [hfcl] at hcn
        have hrun_none : backup_run fs sp none =
            (backupPhase1 fs sp none).1 ++ ((backupPhase2 fs sp none).1 ++
              [Event.progress 100 "Backup complete!",
                Event.finished true "Backup complete"]) := by
          rw [backup_run_of_ok fs sp none (by rw [hcn]), hcn]
          simp
        have hccrun : checkCount (backup_run fs sp none) =
            checkCount (backupPhase1 fs sp none).1 +
              checkCount (backupPhase2 fs sp none).1 := by
          rw [hrun_none, checkCount_append, checkCount_append, checkCount_backup_tail]
          omega
        have hk2 : k - checkCount (backupPhase1 fs sp none).1 <
            checkCount (backupPhase2 fs sp none).1 := by
          rw [hccrun] at hk
          omega
        obtain ⟨hev2, hout2⟩ :=
          (backupPhase2_cancel fs sp (k - checkCount (backupPhase1 fs sp none).1)).1 hk2
        have hne2 : (backupPhase2 fs sp ((backupPhase1 fs sp (some k)).2.1)).2 ≠
            Outcome.ok := by
          rw [hcl1v, hout2]
          simp
        have hcores := backup_run_core_p2_stop fs sp (some k) hok1s hne2
        have hcores2 : backup_run_core fs sp (some k) =
            ((backupPhase1 fs sp (some k)).1 ++
              (backupPhase2 fs sp (some (k - checkCount (backupPhase1 fs sp none).1))).1,
              Outcome.returned) := by
          rw [hcores, hcl1v, hout2]
        have hruns : backup_run fs sp (some k) =
            (backupPhase1 fs sp (some k)).1 ++
              (backupPhase2 fs sp (some (k - checkCount (backupPhase1 fs sp none).1))).1 := by
          rw [backup_run_of_returned fs sp (some k) (by rw [hcores2]), hcores2]
        rw [hruns, hev1, hev2, hrun_none,
          truncBeforeCheck_append_of_ge k _ _ hk1,
          truncBeforeCheck_append_of_lt _ _ _ hk2]
        simp
      | exn m =>
        have ho2arg : (backupPhase2 fs sp ((backupPhase1 fs sp none).2.1)).2 =
            Outcome.exn m := by rw [hfcl, ho2]
        have hcn := backup_run_core_p2_stop fs sp none ho1 (by rw [ho2arg]; simp)
        rw [ho2arg, hfcl] at hcn
        have hrun_none : backup_run fs sp none =
            (backupPhase1 fs sp none).1 ++ ((backupPhase2 fs sp none).1 ++
              [Event.finished false m]) := by
          rw [backup_run_of_exn fs sp none m (by rw [hcn]), hcn]
          simp
        have hccrun : checkCount (backup_run fs sp none) =
            checkCount (backupPhase1 fs sp none).1 +
              checkCount (backupPhase2 fs sp none).1 := by
          rw [hrun_none, checkCount_append, checkCount_append,
            checkCount_cons_nc (Event.finished false m) _ rfl, checkCount_nil]
          omega
        have hk2 : k - checkCount (backupPhase1 fs sp none).1 <
            checkCount (backupPhase2 fs sp none).1 := by
          rw [hccrun] at hk
          omega
        obtain ⟨hev2, hout2⟩ :=
          (backupPhase2_cancel fs sp (k - checkCount (backupPhase1 fs sp none).1)).1 hk2
        have hne2 : (backupPhase2 fs sp ((backupPhase1 fs sp (some k)).2.1)).2 ≠
            Outcome.ok := by
          rw [hcl1v, hout2]
          simp
        have hcores := backup_run_core_p2_stop fs sp (some k) hok1s hne2
        have hcores2 : backup_run_core fs sp (some k) =
            ((backupPhase1 fs sp (some k)).1 ++
              (backupPhase2 fs sp (some (k - checkCount (backupPhase1 fs sp none).1))).1,
              Outcome.returned) := by
          rw [hcores, hcl1v, hout2]
        have hruns : backup_run fs sp (some k) =
            (backupPhase1 fs sp (some k)).1 ++
              (backupPhase2 fs sp (some (k - checkCount (backupPhase1 fs sp none).1))).1 := by
          rw [backup_run_of_returned fs sp (some k) (by rw [hcores2]), hcores2]
        rw [hruns, hev1, hev2, hrun_none,
          truncBeforeCheck_append_of_ge k _ _ hk1,
          truncBeforeCheck_append_of_lt _ _ _ hk2]
        simp

/-- Cancellation of `RestoreWorker.run` relative to its uncancelled
trace. -/
theorem restore_cancel_compose (fs : FS) (sp : RestoreSpec) (k : Nat)
    (hk : k < checkCount (restore_run fs sp none)) :
    restore_run fs sp (some k) =
      truncBeforeCheck k (restore_run fs sp none) ++ [Event.finished false "Cancelled"] := by
  have hp10 : isCheckEv (Event.progress 10 "Removing existing data...") = false := rfl
  have hp30 : isCheckEv (Event.progress 30 "Restoring data...") = false := rfl
  have hne10 : (Event.progress 10 "Removing existing data...") ≠ Event.check := by simp
  have hne30 : (Event.progress 30 "Restoring data...") ≠ Event.check := by simp
  cases ho0 : (restorePhase0 fs sp none).2.2 with
  | returned => exact absurd ho0 (restorePhase0_none_noret fs sp)
  | exn m =>
    have hcober : restore_run_core fs sp none =
        (Event.progress 10 "Removing existing data..." :: (restorePhase0 fs sp none).1,
          Outcome.exn m) := by
      rw [restore_run_core_p0_stop fs sp none (by rw [ho0]; simp), ho0]
    have hrun_none : restore_run fs sp none =
        (Event.progress 10 "Removing existing data..." :: (restorePhase0 fs sp none).1) ++
          [Event.finished false m] := by
      rw [restore_run_of_exn fs sp none m (by rw [hcober]), hcober]
    have hcc_run : checkCount (restore_run fs sp none) =
        checkCount (restorePhase0 fs sp none).1 := by
      rw [hrun_none, checkCount_append, checkCount_cons_nc _ _ hp10,
        checkCount_cons_nc (Event.finished false m) _ rfl, checkCount_nil]
      omega
    rw [hcc_run] at hk
    obtain ⟨hev, hout⟩ := (restorePhase0_cancel fs sp k).1 hk
    have hcores : restore_run_core fs sp (some k) =
        (Event.progress 10 "Removing existing data..." :: (restorePhase0 fs sp (some k)).1,
          Outcome.returned) := by
      rw [restore_run_core_p0_stop fs sp (some k) (by rw [hout]; simp), hout]
    have hruns : restore_run fs sp (some k) =
        Event.progress 10 "Removing existing data..." :: (restorePhase0 fs sp (some k)).1 := by
      rw [restore_run_of_returned fs sp (some k) (by rw [hcores]), hcores]
    rw [hruns, hev, hrun_none, truncBeforeCheck_append_of_lt k _ _
      (by rw [checkCount_cons_nc _ _ hp10]; exact hk),
      truncBeforeCheck_cons_of_ne _ _ _ hne10]
    rfl
  | ok =>
    have hfcl0 := restorePhase0_none_cl fs sp
    by_cases hk0 : k < checkCount (restorePhase0 fs sp none).1
    · obtain ⟨hev, hout⟩ := (restorePhase0_cancel fs sp k).1 hk0
      have hcores : restore_run_core fs sp (some k) =
          (Event.progress 10 "Removing existing data..." :: (restorePhase0 fs sp (some k)).1,
            Outcome.returned) := by
        rw [restore_run_core_p0_stop fs sp (some k) (by rw [hout]; simp), hout]
      have hruns : restore_run fs sp (some k) =
          Event.progress 10 "Removing existing data..." ::
            (restorePhase0 fs sp (some k)).1 := by
        rw [restore_run_of_returned fs sp (some k) (by rw [hcores]), hcores]
      obtain ⟨rest, hrest⟩ : ∃ rest, restore_run fs sp none =
          (Event.progress 10 "Removing existing data..." ::
            (restorePhase0 fs sp none).1) ++ rest := by
        cases ho1 : (restorePhase1 fs sp ((restorePhase0 fs sp none).2.1)).2.2 with
        | returned =>
          rw [hfcl0] at ho1
          exact absurd ho1 (restorePhase1_none_noret fs sp)
        | exn m =>
          have hcn := restore_run_core_p1_stop fs sp none ho0 (by rw [ho1]; simp)
          rw [ho1] at hcn
          refine ⟨(Event.progress 30 "Restoring data..." ::
            (restorePhase1 fs sp ((restorePhase0 fs sp none).2.1)).1) ++
            [Event.finished false m], ?_⟩
          rw [restore_run_of_exn fs sp none m (by rw [hcn]), hcn]
          simp
        | ok =>
          cases ho2 : (restorePhase2 fs sp
              ((restorePhase1 fs sp ((restorePhase0 fs sp none).2.1)).2.1)).2 with
          | returned =>
            rw [hfcl0, restorePhase1_none_cl fs sp] at ho2
            exact absurd ho2 (restorePhase2_none_noret fs sp)
          | ok =>
            have hcn := restore_run_core_all_ok fs sp none ho0 ho1 ho2
            refine ⟨(Event.progress 30 "Restoring data..." ::
              (restorePhase1 fs sp ((restorePhase0 fs sp none).2.1)).1) ++
              ((restorePhase2 fs sp
                ((restorePhase1 fs sp ((restorePhase0 fs sp none).2.1)).2.1)).1 ++
              [Event.progress 100 "Restore complete!",
                Event.finished true "Restore complete"]), ?_⟩
            rw [restore_run_of_ok fs sp none (by rw [hcn]), hcn]
            simp
          | exn m =>
            have hcn := restore_run_core_p2_stop fs sp none ho0 ho1 (by rw [ho2]; simp)
            rw [ho2] at hcn
            refine ⟨(Event.progress 30 "Restoring data..." ::
              (restorePhase1 fs sp ((restorePhase0 fs sp none).2.1)).1) ++
              ((restorePhase2 fs sp
                ((restorePhase1 fs sp ((restorePhase0 fs sp none).2.1)).2.1)).1 ++
              [Event.finished false m]), ?_⟩
            rw [restore_run_of_exn fs sp none m (by rw [hcn]), hcn]
            simp
      rw [hruns, hev, hrest, truncBeforeCheck_append_of_lt k _ _
        (by rw [checkCount_cons_nc _ _ hp10]; exact hk0),
        truncBeforeCheck_cons_of_ne _ _ _ hne10]
      rfl
    · push_neg at hk0
      obtain ⟨hev0, hout0, hcl0⟩ := (restorePhase0_cancel fs sp k).2 hk0
      have hok0s : (restorePhase0 fs sp (some k)).2.2 = Outcome.ok := by rw [hout0, ho0]
      have hcl0v : (restorePhase0 fs sp (some k)).2.1 =
          some (k - checkCount (restorePhase0 fs sp none).1) := hcl0 ho0
      cases ho1 : (restorePhase1 fs sp none).2.2 with
      | returned => exact absurd ho1 (restorePhase1_none_noret fs sp)
      | exn m =>
        have ho1arg : (restorePhase1 fs sp ((restorePhase0 fs sp none).2.1)).2.2 =
            Outcome.exn m := by rw [hfcl0, ho1]
        have hcn := restore_run_core_p1_stop fs sp none ho0 (by rw [ho1arg]; simp)
        rw [ho1arg, hfcl0] at hcn
        have hrun_none : restore_run fs sp none =
            (Event.progress 10 "Removing existing data..." ::
              (restorePhase0 fs sp none).1) ++
              ((Event.progress 30 "Restoring data..." :: (restorePhase1 fs sp none).1) ++
                [Event.finished false m]) := by
          rw [restore_run_of_exn fs sp none m (by rw [hcn]), hcn]
          simp
        have hccrun : checkCount (restore_run fs sp none) =
            checkCount (restorePhase0 fs sp none).1 +
              checkCount (restorePhase1 fs sp none).1 := by
          rw [hrun_none, checkCount_append, checkCount_append,
            checkCount_cons_nc _ _ hp10, checkCount_cons_nc _ _ hp30,
            checkCount_cons_nc (Event.finished false m) _ rfl, checkCount_nil]
          omega
        have hk1 : k - checkCount (restorePhase0 fs sp none).1 <
            checkCount (restorePhase1 fs sp none).1 := by
          rw [hccrun] at hk
          omega
        obtain ⟨hev1, hout1⟩ :=
          (restorePhase1_cancel fs sp (k - checkCount (restorePhase0 fs sp none).1)).1 hk1
        have hne1 : (restorePhase1 fs sp ((restorePhase0 fs sp (some k)).2.1)).2.2 ≠
            Outcome.ok := by
          rw [hcl0v, hout1]
          simp
        have hcores := restore_run_core_p1_stop fs sp (some k) hok0s hne1
        have hcores2 : restore_run_core fs sp (some k) =
            ((Event.progress 10 "Removing existing data..." ::
              (restorePhase0 fs sp (some k)).1) ++
              Event.progress 30 "Restoring data..." ::
                (restorePhase1 fs sp
                  (some (k - checkCount (restorePhase0 fs sp none).1))).1,
              Outcome.returned) := by
          rw [hcores, hcl0v, hout1]
        have hruns : restore_run fs sp (some k) =
            (Event.progress 10 "Removing existing data..." ::
              (restorePhase0 fs sp (some k)).1) ++
              Event.progress 30 "Restoring data..." ::
                (restorePhase1 fs sp
                  (some (k - checkCount (restorePhase0 fs sp none).1))).1 := by
          rw [restore_run_of_returned fs sp (some k) (by rw [hcores2]), hcores2]
        rw [hruns, hev0, hev1, hrun_none,
          truncBeforeCheck_append_of_ge k _ _
            (by rw [checkCount_cons_nc _ _ hp10]; exact hk0)]
        rw [checkCount_cons_nc _ _ hp10]
        rw [truncBeforeCheck_append_of_lt _ _ _
          (by rw [checkCount_cons_nc _ _ hp30]; exact hk1),
          truncBeforeCheck_cons_of_ne _ _ _ hne30]
        simp
      | ok =>
        have hfcl1 := restorePhase1_none_cl fs sp
        by_cases hk1 : k - checkCount (restorePhase0 fs sp none).1 <
            checkCount (restorePhase1 fs sp none).1
        · obtain ⟨hev1, hout1⟩ :=
            (restorePhase1_cancel fs sp (k - checkCount (restorePhase0 fs sp none).1)).1 hk1
          have hne1 : (restorePhase1 fs sp ((restorePhase0 fs sp (some k)).2.1)).2.2 ≠
              Outcome.ok := by
            rw [hcl0v, hout1]
            simp
          have hcores := restore_run_core_p1_stop fs sp (some k) hok0s hne1
          have hcores2 : restore_run_core fs sp (some k) =
              ((Event.progress 10 "Removing existing data..." ::
                (restorePhase0 fs sp (some k)).1) ++
                Event.progress 30 "Restoring data..." ::
                  (restorePhase1 fs sp
                    (some (k - checkCount (restorePhase0 fs sp none).1))).1,
                Outcome.returned) := by
            rw [hcores, hcl0v, hout1]
          have hruns : restore_run fs sp (some k) =
              (Event.progress 10 "Removing existing data..." ::
                (restorePhase0 fs sp (some k)).1) ++
                Event.progress 30 "Restoring data..." ::
                  (restorePhase1 fs sp
                    (some (k - checkCount (restorePhase0 fs sp none).1))).1 := by
            rw [restore_run_of_returned fs sp (some k) (by rw [hcores2]), hcores2]
          obtain ⟨rest, hrest⟩ : ∃ rest, restore_run fs sp none =
              (Event.progress 10 "Removing existing data..." ::
                (restorePhase0 fs sp none).1) ++
                ((Event.progress 30 "Restoring data..." ::
                  (restorePhase1 fs sp none).1) ++ rest) := by
            cases ho2 : (restorePhase2 fs sp
                ((restorePhase1 fs sp ((restorePhase0 fs sp none).2.1)).2.1)).2 with
            | returned =>
              rw [hfcl0, hfcl1] at ho2
              exact absurd ho2 (restorePhase2_none_noret fs sp)
            | ok =>
              have ho1arg : (restorePhase1 fs sp ((restorePhase0 fs sp none).2.1)).2.2 =
                  Outcome.ok := by rw [hfcl0, ho1]
              have hcn := restore_run_core_all_ok fs sp none ho0 ho1arg ho2
              rw [hfcl0] at hcn
              refine ⟨(restorePhase2 fs sp
                  ((restorePhase1 fs sp none).2.1)).1 ++
                [Event.progress 100 "Restore complete!",
                  Event.finished true "Restore complete"], ?_⟩
              rw [restore_run_of_ok fs sp none (by rw [hcn]), hcn]
              simp
            | exn m =>
              have ho1arg : (restorePhase1 fs sp ((restorePhase0 fs sp none).2.1)).2.2 =
                  Outcome.ok := by rw [hfcl0, ho1]
              have hcn := restore_run_core_p2_stop fs sp none ho0 ho1arg (by rw [ho2]; simp)
              rw [ho2, hfcl0] at hcn
              refine ⟨(restorePhase2 fs sp
                  ((restorePhase1 fs sp none).2.1)).1 ++
                [Event.finished false m], ?_⟩
              rw [restore_run_of_exn fs sp none m (by rw [hcn]), hcn]
              simp
          rw [hruns, hev0, hev1, hrest,
            truncBeforeCheck_append_of_ge k _ _
              (by rw [checkCount_cons_nc _ _ hp10]; exact hk0)]
          rw [checkCount_cons_nc _ _ hp10]
          rw [truncBeforeCheck_append_of_lt _ _ _
            (by rw [checkCount_cons_nc _ _ hp30]; exact hk1),
            truncBeforeCheck_cons_of_ne _ _ _ hne30]
          simp
        · push_neg at hk1
          obtain ⟨hev1, hout1, hcl1⟩ :=
            (restorePhase1_cancel fs sp (k - checkCount (restorePhase0 fs sp none).1)).2 hk1
          have hok1s : (restorePhase1 fs sp
              (some (k - checkCount (restorePhase0 fs sp none).1))).2.2 = Outcome.ok := by
            rw [hout1, ho1]
          have hcl1v : (restorePhase1 fs sp
              (some (k - checkCount (restorePhase0 fs sp none).1))).2.1 =
              some (k - checkCount (restorePhase0 fs sp none).1 -
                checkCount (restorePhase1 fs sp none).1) := hcl1 ho1
          cases ho2 : (restorePhase2 fs sp none).2 with
          | returned => exact absurd ho2 (restorePhase2_none_noret fs sp)
          | ok =>
            have ho1arg : (restorePhase1 fs sp ((restorePhase0 fs sp none).2.1)).2.2 =
                Outcome.ok := by rw [hfcl0, ho1]
            have ho2arg : (restorePhase2 fs sp
                ((restorePhase1 fs sp ((restorePhase0 fs sp none).2.1)).2.1)).2 =
                Outcome.ok := by rw [hfcl0, hfcl1, ho2]
            have hcn := restore_run_core_all_ok fs sp none ho0 ho1arg ho2arg
            rw [hfcl0, hfcl1] at hcn
            have hrun_none : restore_run fs sp none =
                (Event.progress 10 "Removing existing data..." ::
                  (restorePhase0 fs sp none).1) ++
                  ((Event.progress 30 "Restoring data..." ::
                    (restorePhase1 fs sp none).1) ++
                    ((restorePhase2 fs sp none).1 ++
                      [Event.progress 100 "Restore complete!",
                        Event.finished true "Restore complete"])) := by
              rw [restore_run_of_ok fs sp none (by rw [hcn]), hcn]
              simp
            have hccrun : checkCount (restore_run fs sp none) =
                checkCount (restorePhase0 fs sp none).1 +
                  checkCount (restorePhase1 fs sp none).1 +
                  checkCount (restorePhase2 fs sp none).1 := by
              rw [hrun_none, checkCount_append, checkCount_append, checkCount_append,
                checkCount_cons_nc _ _ hp10, checkCount_cons_nc _ _ hp30]
              have htail : checkCount [Event.progress 100 "Restore complete!",
                  Event.finished true "Restore complete"] = 0 := rfl
              rw [htail]
              omega
            have hk2 : k - checkCount (restorePhase0 fs sp none).1 -
                checkCount (restorePhase1 fs sp none).1 <
                checkCount (restorePhase2 fs sp none).1 := by
              rw [hccrun] at hk
              omega
            obtain ⟨hev2, hout2⟩ := (restorePhase2_cancel fs sp
              (k - checkCount (restorePhase0 fs sp none).1 -
                checkCount (restorePhase1 fs sp none).1)).1 hk2
            have hne2 : (restorePhase2 fs sp
                ((restorePhase1 fs sp ((restorePhase0 fs sp (some k)).2.1)).2.1)).2 ≠
                Outcome.ok := by
              rw [hcl0v, hcl1v, hout2]
              simp
            have hok1arg : (restorePhase1 fs sp
                ((restorePhase0 fs sp (some k)).2.1)).2.2 = Outcome.ok := by
              rw [hcl0v]
              exact hok1s
            have hcores := restore_run_core_p2_stop fs sp (some k) hok0s hok1arg hne2
            have hcores2 : restore_run_core fs sp (some k) =
                (((Event.progress 10 "Removing existing data..." ::
                  (restorePhase0 fs sp (some k)).1) ++
                  Event.progress 30 "Restoring data..." ::
                    (restorePhase1 fs sp
                      (some (k - checkCount (restorePhase0 fs sp none).1))).1) ++
                  (restorePhase2 fs sp
                    (some (k - checkCount (restorePhase0 fs sp none).1 -
                      checkCount (restorePhase1 fs sp none).1))).1,
                  Outcome.returned) := by
              rw [hcores, hcl0v, hcl1v, hout2]
            have hruns : restore_run fs sp (some k) =
                ((Event.progress 10 "Removing existing data..." ::
                  (restorePhase0 fs sp (some k)).1) ++
                  Event.progress 30 "Restoring data..." ::
                    (restorePhase1 fs sp
                      (some (k - checkCount (restorePhase0 fs sp none).1))).1) ++
                  (restorePhase2 fs sp
                    (some (k - checkCount (restorePhase0 fs sp none).1 -
                      checkCount (restorePhase1 fs sp none).1))).1 := by
              rw [restore_run_of_returned fs sp (some k) (by rw [hcores2]), hcores2]
            rw [hruns, hev0, hev1, hev2, hrun_none,
              truncBeforeCheck_append_of_ge k _ _
                (by rw [checkCount_cons_nc _ _ hp10]; exact hk0)]
            rw [checkCount_cons_nc _ _ hp10]
            rw [truncBeforeCheck_append_of_ge _ _ _
              (by rw [checkCount_cons_nc _ _ hp30]; exact hk1)]
            rw [checkCount_cons_nc _ _ hp30]
            rw [truncBeforeCheck_append_of_lt _ _ _ hk2]
            simp
          | exn m =>
            have ho1arg : (restorePhase1 fs sp ((restorePhase0 fs sp none).2.1)).2.2 =
                Outcome.ok := by rw [hfcl0, ho1]
            have ho2arg : (restorePhase2 fs sp
                ((restorePhase1 fs sp ((restorePhase0 fs sp none).2.1)).2.1)).2 =
                Outcome.exn m := by rw [hfcl0, hfcl1, ho2]
            have hcn := restore_run_core_p2_stop fs sp none ho0 ho1arg (by rw [ho2arg]; simp)
            rw [ho2arg, hfcl0, hfcl1] at hcn
            have hrun_none : restore_run fs sp none =
                (Event.progress 10 "Removing existing data..." ::
                  (restorePhase0 fs sp none).1) ++
                  ((Event.progress 30 "Restoring data..." ::
                    (restorePhase1 fs sp none).1) ++
                    ((restorePhase2 fs sp none).1 ++ [Event.finished false m])) := by
              rw [restore_run_of_exn fs sp none m (by rw [hcn]), hcn]
              simp
            have hccrun : checkCount (restore_run fs sp none) =
                checkCount (restorePhase0 fs sp none).1 +
                  checkCount (restorePhase1 fs sp none).1 +
                  checkCount (restorePhase2 fs sp none).1 := by
              rw [hrun_none, checkCount_append, checkCount_append, checkCount_append,
                checkCount_cons_nc _ _ hp10, checkCount_cons_nc _ _ hp30,
                checkCount_cons_nc (Event.finished false m) _ rfl, checkCount_nil]
              omega
            have hk2 : k - checkCount (restorePhase0 fs sp none).1 -
                checkCount (restorePhase1 fs sp none).1 <
                checkCount (restorePhase2 fs sp none).1 := by
              rw [hccrun] at hk
              omega
            obtain ⟨hev2, hout2⟩ := (restorePhase2_cancel fs sp
              (k - checkCount (restorePhase0 fs sp none).1 -
                checkCount (restorePhase1 fs sp none).1)).1 hk2
            have hne2 : (restorePhase2 fs sp
                ((restorePhase1 fs sp ((restorePhase0 fs sp (some k)).2.1)).2.1)).2 ≠
                Outcome.ok := by
              rw [hcl0v, hcl1v, hout2]
              simp
            have hok1arg : (restorePhase1 fs sp
                ((restorePhase0 fs sp (some k)).2.1)).2.2 = Outcome.ok := by
              rw [hcl0v]
              exact hok1s
            have hcores := restore_run_core_p2_stop fs sp (some k) hok0s hok1arg hne2
            have hcores2 : restore_run_core fs sp (some k) =
                (((Event.progress 10 "Removing existing data..." ::
                  (restorePhase0 fs sp (some k)).1) ++
                  Event.progress 30 "Restoring data..." ::
                    (restorePhase1 fs sp
                      (some (k - checkCount (restorePhase0 fs sp none).1))).1) ++
                  (restorePhase2 fs sp
                    (some (k - checkCount (restorePhase0 fs sp none).1 -
                      checkCount (restorePhase1 fs sp none).1))).1,
                  Outcome.returned) := by
              rw [hcores, hcl0v, hcl1v, hout2]
            have hruns : restore_run fs sp (some k) =
                ((Event.progress 10 "Removing existing data..." ::
                  (restorePhase0 fs sp (some k)).1) ++
                  Event.progress 30 "Restoring data..." ::
                    (restorePhase1 fs sp
                      (some (k - checkCount (restorePhase0 fs sp none).1))).1) ++
                  (restorePhase2 fs sp
                    (some (k - checkCount (restorePhase0 fs sp none).1 -
                      checkCount (restorePhase1 fs sp none).1))).1 := by
              rw [restore_run_of_returned fs sp (some k) (by rw [hcores2]), hcores2]
            rw [hruns, hev0, hev1, hev2, hrun_none,
              truncBeforeCheck_append_of_ge k _ _
                (by rw [checkCount_cons_nc _ _ hp10]; exact hk0)]
            rw [checkCount_cons_nc _ _ hp10]
            rw [truncBeforeCheck_append_of_ge _ _ _
              (by rw [checkCount_cons_nc _ _ hp30]; exact hk1)]
            rw [checkCount_cons_nc _ _ hp30]
            rw [truncBeforeCheck_append_of_lt _ _ _ hk2]
            simp

/-- C1: for both workers, a cancellation token read as set at the k-th
token check makes the run emit exactly the uncancelled trace truncated at
that check followed by the single terminal finished(false, "Cancelled")
event: nothing is copied after the detection point, and the events before
it — including every copy already performed — are exactly a prefix of the
uncancelled run (no rollback). -/
theorem C1_cancellation (fs : FS) (bsp : BackupSpec) (rsp : RestoreSpec) (kb kr : Nat) :
    (kb < checkCount (backup_run fs bsp none) →
      backup_run fs bsp (some kb) =
        truncBeforeCheck kb (backup_run fs bsp none) ++
          [Event.finished false "Cancelled"] ∧
      ∃ rest, backup_run fs bsp none =
        truncBeforeCheck kb (backup_run fs bsp none) ++ rest) ∧
    (kr < checkCount (restore_run fs rsp none) →
      restore_run fs rsp (some kr) =
        truncBeforeCheck kr (restore_run fs rsp none) ++
          [Event.finished false "Cancelled"] ∧
      ∃ rest, restore_run fs rsp none =
        truncBeforeCheck kr (restore_run fs rsp none) ++ rest) :=
  ⟨fun h => ⟨backup_cancel_compose fs bsp kb h, truncBeforeCheck_prefix kb _⟩,
   fun h => ⟨restore_cancel_compose fs rsp kr h, truncBeforeCheck_prefix kr _⟩⟩

/-- Witness for C1: cancellation detected at the second token read of the
concrete backup and restore fixtures. -/
theorem C1_cancellation_witness :
    (1 < checkCount (backup_run wfsB wspB none) ∧
      backup_run wfsB wspB (some 1) =
        truncBeforeCheck 1 (backup_run wfsB wspB none) ++
          [Event.finished false "Cancelled"]) ∧
    (1 < checkCount (restore_run wfsR wspR none) ∧
      restore_run wfsR wspR (some 1) =
        truncBeforeCheck 1 (restore_run wfsR wspR none) ++
          [Event.finished false "Cancelled"]) := by
  refine ⟨⟨by decide, ?_⟩, ⟨by decide, ?_⟩⟩
  · exact ((C1_cancellation wfsB wspB wspR 1 1).1 (by decide)).1
  · exact ((C1_cancellation wfsR wspB wspR 1 1).2 (by decide)).1

/-! ## Percent-sequence lemmas -/

theorem vW_mono (base span total i j : Nat) (hij : i ≤ j) :
    base + (i + 1) * span / total ≤ base + (j + 1) * span / total := by
  have h1 : (i + 1) * span ≤ (j + 1) * span := Nat.mul_le_mul_right span (by omega)
  have h2 := Nat.div_le_div_right (c := total) h1
  omega

theorem vW_le (base span total i : Nat) (h : i < total) :
    base + (i + 1) * span / total ≤ base + span := by
  have h1 : (i + 1) * span ≤ total * span := Nat.mul_le_mul_right span (by omega)
  have h2 := Nat.div_le_div_right (c := total) h1
  have h3 : total * span / total = span :=
    Nat.mul_div_cancel_left span (by omega)
  rw [h3] at h2
  exact Nat.add_le_add_left h2 base

theorem pcts_range_facts (v : Nat → Nat) (n : Nat) (l : List Nat) (lo hi : Nat)
    (hsub : List.Sublist l ((List.range' 0 n).map v))
    (hmono : ∀ i j, i ≤ j → v i ≤ v j)
    (hlo : ∀ i, lo ≤ v i) (hhi : ∀ i, i < n → v i ≤ hi) :
    List.Pairwise (· ≤ ·) l ∧ ∀ p ∈ l, lo ≤ p ∧ p ≤ hi := by
  have hp2 : List.Pairwise (· ≤ ·) ((List.range' 0 n).map v) := by
    rw [List.pairwise_map]
    exact (List.pairwise_lt_range' 0 n).imp (fun hab => hmono _ _ (Nat.le_of_lt hab))
  constructor
  · exact hp2.sublist hsub
  · intro p hp
    obtain ⟨i, hi, rfl⟩ := List.mem_map.mp (hsub.subset hp)
    have hmem := List.mem_range'_1.mp hi
    exact ⟨hlo i, hhi i (by omega)⟩

theorem workerLoop_pcts_nil {σ α : Type} (step : Nat → σ → α → List Event × σ × Outcome)
    (hp : ∀ i s x, pcts (step i s x).1 = []) :
    ∀ (l : List α) (i : Nat) (s : σ) (cl : Option Nat),
      pcts (workerLoop step l i s cl).1 = [] := by
  intro l
  induction l with
  | nil =>
    intro i s cl
    rw [workerLoop_nil, pcts_nil]
  | cons x rest ih =>
    intro i s cl
    by_cases hc : cancelNow cl = true
    · rw [workerLoop_cons_cancelled step x rest i s cl hc]
      rfl
    · have hc2 : cancelNow cl = false := by simpa using hc
      by_cases ho : (step i s x).2.2 = Outcome.ok
      · rw [workerLoop_cons_ok step x rest i s cl hc2 ho, pcts_cons_check, pcts_append,
          hp i s x, ih (i + 1) ((step i s x).2.1) (cancelStep cl)]
        rfl
      · rw [workerLoop_cons_stop step x rest i s cl hc2 ho, pcts_cons_check, hp i s x]

theorem backupPhase1_pcts (fs : FS) (sp : BackupSpec) (cl : Option Nat) :
    List.Pairwise (· ≤ ·) (pcts (backupPhase1 fs sp cl).1) ∧
    ∀ p ∈ pcts (backupPhase1 fs sp cl).1, 30 ≤ p ∧ p ≤ 80 := by
  by_cases hit : sp.backupItems ≠ []
  · simp only [backupPhase1, if_pos hit]
    rw [pcts_cons_log]
    exact pcts_range_facts (fun i => 30 + (i + 1) * 50 / sp.backupItems.length)
      sp.backupItems.length _ 30 80
      (workerLoop_pcts _ _
        (fun i s x => (backupItemStep_facts fs sp.sourcePath sp.backupFolder
          sp.backupItems.length i s x).2.2.2)
        sp.backupItems 0 () cl)
      (fun i j hij => vW_mono 30 50 sp.backupItems.length i j hij)
      (fun i => Nat.le_add_right 30 _)
      (fun i hi => vW_le 30 50 sp.backupItems.length i hi)
  · simp only [backupPhase1, if_neg hit]
    rw [pcts_cons_log]
    exact pcts_range_facts
      (fun i => 30 + (i + 1) * 50 / (fs.listDir sp.sourcePath).length)
      (fs.listDir sp.sourcePath).length _ 30 80
      (workerLoop_pcts _ _
        (fun i s x => (backupFallbackStep_facts fs sp.sourcePath sp.backupFolder
          (fs.listDir sp.sourcePath).length i s x).2.2.2)
        (fs.listDir sp.sourcePath) 0 () cl)
      (fun i j hij => vW_mono 30 50 (fs.listDir sp.sourcePath).length i j hij)
      (fun i => Nat.le_add_right 30 _)
      (fun i hi => vW_le 30 50 (fs.listDir sp.sourcePath).length i hi)

theorem backupPhase2_pcts (fs : FS) (sp : BackupSpec) (cl : Option Nat) :
    List.Pairwise (· ≤ ·) (pcts (backupPhase2 fs sp cl).1) ∧
    ∀ p ∈ pcts (backupPhase2 fs sp cl).1, 80 ≤ p ∧ p ≤ 95 := by
  by_cases had : sp.addonPaths ≠ []
  · simp only [backupPhase2, if_pos had]
    rw [pcts_cons_log]
    exact pcts_range_facts (fun j => 80 + (j + 1) * 15 / sp.addonPaths.length)
      sp.addonPaths.length _ 80 95
      (workerLoop_pcts _ _
        (fun i s x => (backupAddonStep_facts fs (joinPath sp.backupFolder "_addons")
          sp.addonPaths.length i s x).2.2.2)
        sp.addonPaths 0 none cl)
      (fun i j hij => vW_mono 80 15 sp.addonPaths.length i j hij)
      (fun i => Nat.le_add_right 80 _)
      (fun i hi => vW_le 80 15 sp.addonPaths.length i hi)
  · simp only [backupPhase2, if_neg had]
    simp [pcts_nil]

theorem restorePhase0_pcts (fs : FS) (sp : RestoreSpec) (cl : Option Nat) :
    pcts (restorePhase0 fs sp cl).1 = [] := by
  by_cases hex : fs.pathExists sp.targetPath
  · simp only [restorePhase0, if_pos hex]
    exact workerLoop_pcts_nil _
      (fun i s x => (restoreDeleteStep_facts fs sp.targetPath i s x).2.2.2)
      (fs.listDir sp.targetPath) 0 () cl
  · simp only [restorePhase0, if_neg hex]
    rfl

theorem restorePhase1_pcts (fs : FS) (sp : RestoreSpec) (cl : Option Nat) :
    List.Pairwise (· ≤ ·) (pcts (restorePhase1 fs sp cl).1) ∧
    ∀ p ∈ pcts (restorePhase1 fs sp cl).1, 30 ≤ p ∧ p ≤ 80 := by
  simp only [restorePhase1]
  exact pcts_range_facts
    (fun i => 30 + (i + 1) * 50 /
      ((fs.listDir sp.backupFolder).filter (fun f => f ≠ "_addons")).length)
    ((fs.listDir sp.backupFolder).filter (fun f => f ≠ "_addons")).length _ 30 80
    (workerLoop_pcts _ _
      (fun i s x => (restoreItemStep_facts fs sp.backupFolder sp.targetPath
        ((fs.listDir sp.backupFolder).filter (fun f => f ≠ "_addons")).length i s x).2.2.2)
      ((fs.listDir sp.backupFolder).filter (fun f => f ≠ "_addons")) 0 () cl)
    (fun i j hij => vW_mono 30 50 _ i j hij)
    (fun i => Nat.le_add_right 30 _)
    (fun i hi => vW_le 30 50 _ i hi)

theorem restorePhase2_pcts (fs : FS) (sp : RestoreSpec) (cl : Option Nat) :
    List.Pairwise (· ≤ ·) (pcts (restorePhase2 fs sp cl).1) ∧
    ∀ p ∈ pcts (restorePhase2 fs sp cl).1, 80 ≤ p ∧ p ≤ 95 := by
  by_cases hcond : fs.pathExists (joinPath sp.backupFolder "_addons") ∧ sp.addonPaths ≠ []
  · simp only [restorePhase2, if_pos hcond]
    rw [pcts_cons_log]
    exact pcts_range_facts (fun j => 80 + (j + 1) * 15 / sp.addonPaths.length)
      sp.addonPaths.length _ 80 95
      (workerLoop_pcts _ _
        (fun i s x => (restoreAddonStep_facts fs (joinPath sp.backupFolder "_addons")
          sp.addonPaths.length i s x).2.2.2)
        sp.addonPaths 0 () cl)
      (fun i j hij => vW_mono 80 15 sp.addonPaths.length i j hij)
      (fun i => Nat.le_add_right 80 _)
      (fun i hi => vW_le 80 15 sp.addonPaths.length i hi)
  · simp only [restorePhase2, if_neg hcond]
    simp [pcts_nil]

theorem pairwise_le_append2 (A B : List Nat) (c : Nat)
    (hA : List.Pairwise (· ≤ ·) A) (hB : List.Pairwise (· ≤ ·) B)
    (hAle : ∀ a ∈ A, a ≤ c) (hBge : ∀ b ∈ B, c ≤ b) :
    List.Pairwise (· ≤ ·) (A ++ B) :=
  List.pairwise_append.mpr ⟨hA, hB, fun a ha b hb => (hAle a ha).trans (hBge b hb)⟩

theorem pcts_fin_singleton (b : Bool) (m : String) : pcts [Event.finished b m] = [] := rfl

theorem pcts_tail_backup :
    pcts [Event.progress 100 "Backup complete!", Event.finished true "Backup complete"] =
      [100] := rfl

theorem pcts_tail_restore :
    pcts [Event.progress 100 "Restore complete!", Event.finished true "Restore complete"] =
      [100] := rfl

theorem backup_run_pcts (fs : FS) (sp : BackupSpec) (cl : Option Nat) :
    List.Pairwise (· ≤ ·) (pcts (backup_run fs sp cl)) ∧
    (∀ p ∈ pcts (backup_run fs sp cl), p ≤ 100) ∧
    (∀ m, (backup_run fs sp cl).getLast? = some (Event.finished true m) →
      (pcts (backup_run fs sp cl)).getLast? = some 100) := by
  have hP1 := backupPhase1_pcts fs sp cl
  cases ho1 : (backupPhase1 fs sp cl).2.2 with
  | returned =>
    have hcore : backup_run_core fs sp cl =
        ((backupPhase1 fs sp cl).1, Outcome.returned) := by
      rw [backup_run_core_p1_stop fs sp cl (by rw [ho1]; simp), ho1]
    have hrun : backup_run fs sp cl = (backupPhase1 fs sp cl).1 := by
      rw [backup_run_of_returned fs sp cl (by rw [hcore]), hcore]
    rw [hrun]
    refine ⟨hP1.1, fun p hp => (hP1.2 p hp).2.trans (by omega), fun m hlast => ?_⟩
    obtain ⟨pre, hpre, _⟩ := (backupPhase1_finished fs sp cl).1 ho1
    rw [hpre, List.getLast?_concat] at hlast
    simp at hlast
  | exn m0 =>
    have hcore : backup_run_core fs sp cl =
        ((backupPhase1 fs sp cl).1, Outcome.exn m0) := by
      rw [backup_run_core_p1_stop fs sp cl (by rw [ho1]; simp), ho1]
    have hrun : backup_run fs sp cl =
        (backupPhase1 fs sp cl).1 ++ [Event.finished false m0] := by
      rw [backup_run_of_exn fs sp cl m0 (by rw [hcore]), hcore]
    have hpc : pcts (backup_run fs sp cl) = pcts (backupPhase1 fs sp cl).1 := by
      rw [hrun, pcts_append, pcts_fin_singleton, List.append_nil]
    rw [hpc]
    refine ⟨hP1.1, fun p hp => (hP1.2 p hp).2.trans (by omega), fun m hlast => ?_⟩
    rw [hrun, List.getLast?_concat] at hlast
    simp at hlast
  | ok =>
    have hP2 := backupPhase2_pcts fs sp (backupPhase1 fs sp cl).2.1
    cases ho2 : (backupPhase2 fs sp (backupPhase1 fs sp cl).2.1).2 with
    | returned =>
      have hcore : backup_run_core fs sp cl =
          ((backupPhase1 fs sp cl).1 ++
            (backupPhase2 fs sp (backupPhase1 fs sp cl).2.1).1, Outcome.returned) := by
        rw [backup_run_core_p2_stop fs sp cl ho1 (by rw [ho2]; simp), ho2]
      have hrun : backup_run fs sp cl = (backupPhase1 fs sp cl).1 ++
          (backupPhase2 fs sp (backupPhase1 fs sp cl).2.1).1 := by
        rw [backup_run_of_returned fs sp cl (by rw [hcore]), hcore]
      have hpc : pcts (backup_run fs sp cl) =
          pcts (backupPhase1 fs sp cl).1 ++
            pcts (backupPhase2 fs sp (backupPhase1 fs sp cl).2.1).1 := by
        rw [hrun, pcts_append]
      rw [hpc]
      refine ⟨?_, ?_, fun m hlast => ?_⟩
      · exact pairwise_le_append2 _ _ 80 hP1.1 hP2.1
          (fun a ha => (hP1.2 a ha).2) (fun b hb => (hP2.2 b hb).1)
      · intro p hp
        rcases List.mem_append.mp hp with h | h
        · exact (hP1.2 p h).2.trans (by omega)
        · exact (hP2.2 p h).2.trans (by omega)
      · obtain ⟨pre, hpre, _⟩ := (backupPhase2_finished fs sp
          (backupPhase1 fs sp cl).2.1).1 ho2
        rw [hrun, hpre, ← List.append_assoc, List.getLast?_concat] at hlast
        simp at hlast
    | exn m0 =>
      have hcore : backup_run_core fs sp cl =
          ((backupPhase1 fs sp cl).1 ++
            (backupPhase2 fs sp (backupPhase1 fs sp cl).2.1).1, Outcome.exn m0) := by
        rw [backup_run_core_p2_stop fs sp cl ho1 (by rw [ho2]; simp), ho2]
      have hrun : backup_run fs sp cl = ((backupPhase1 fs sp cl).1 ++
          (backupPhase2 fs sp (backupPhase1 fs sp cl).2.1).1) ++
            [Event.finished false m0] := by
        rw [backup_run_of_exn fs sp cl m0 (by rw [hcore]), hcore]
      have hpc : pcts (backup_run fs sp cl) =
          pcts (backupPhase1 fs sp cl).1 ++
            pcts (backupPhase2 fs sp (backupPhase1 fs sp cl).2.1).1 := by
        rw [hrun, pcts_append, pcts_append, pcts_fin_singleton, List.append_nil]
      rw [hpc]
      refine ⟨?_, ?_, fun m hlast => ?_⟩
      · exact pairwise_le_append2 _ _ 80 hP1.1 hP2.1
          (fun a ha => (hP1.2 a ha).2) (fun b hb => (hP2.2 b hb).1)
      · intro p hp
        rcases List.mem_append.mp hp with h | h
        · exact (hP1.2 p h).2.trans (by omega)
        · exact (hP2.2 p h).2.trans (by omega)
      · rw [hrun, List.getLast?_concat] at hlast
        simp at hlast
    | ok =>
      have hcore := backup_run_core_all_ok fs sp cl ho1 ho2
      have hrun : backup_run fs sp cl = (backupPhase1 fs sp cl).1 ++
          (backupPhase2 fs sp (backupPhase1 fs sp cl).2.1).1 ++
          [Event.progress 100 "Backup complete!",
            Event.finished true "Backup complete"] := by
        rw [backup_run_of_ok fs sp cl (by rw [hcore]), hcore]
      have hpc : pcts (backup_run fs sp cl) =
          (pcts (backupPhase1 fs sp cl).1 ++
            pcts (backupPhase2 fs sp (backupPhase1 fs sp cl).2.1).1) ++ [100] := by
        rw [hrun, pcts_append, pcts_append, pcts_tail_backup, List.append_assoc]
      rw [hpc]
      refine ⟨?_, ?_, fun m _ => List.getLast?_concat _⟩
      · refine pairwise_le_append2 _ _ 95 ?_ ?_ ?_ ?_
        · exact pairwise_le_append2 _ _ 80 hP1.1 hP2.1
            (fun a ha => (hP1.2 a ha).2) (fun b hb => (hP2.2 b hb).1)
        · exact List.pairwise_singleton _ _
        · intro a ha
          rcases List.mem_append.mp ha with h | h
          · exact (hP1.2 a h).2.trans (by omega)
          · exact (hP2.2 a h).2
        · intro b hb
          simp at hb
          omega
      · intro p hp
        rcases List.mem_append.mp hp with h | h
        · rcases List.mem_append.mp h with h2 | h2
          · exact (hP1.2 p h2).2.trans (by omega)
          · exact (hP2.2 p h2).2.trans (by omega)
        · simp at hp ⊢
          simp at h
          omega

theorem restore_run_pcts (fs : FS) (sp : RestoreSpec) (cl : Option Nat) :
    List.Pairwise (· ≤ ·) (pcts (restore_run fs sp cl)) ∧
    (∀ p ∈ pcts (restore_run fs sp cl), p ≤ 100) ∧
    (∀ m, (restore_run fs sp cl).getLast? = some (Event.finished true m) →
      (pcts (restore_run fs sp cl)).getLast? = some 100) := by
  cases ho0 : (restorePhase0 fs sp cl).2.2 with
  | returned =>
    have hcore : restore_run_core fs sp cl =
        (Event.progress 10 "Removing existing data..." :: (restorePhase0 fs sp cl).1,
          Outcome.returned) := by
      rw [restore_run_core_p0_stop fs sp cl (by rw [ho0]; simp), ho0]
    have hrun : restore_run fs sp cl =
        Event.progress 10 "Removing existing data..." :: (restorePhase0 fs sp cl).1 := by
      rw [restore_run_of_returned fs sp cl (by rw [hcore]), hcore]
    have hpc : pcts (restore_run fs sp cl) = [10] := by
      rw [hrun, pcts_cons_progress, restorePhase0_pcts fs sp cl]
    refine ⟨by rw [hpc]; exact List.pairwise_singleton _ _,
      by rw [hpc]; intro p hp; simp at hp; omega, fun m hlast => ?_⟩
    obtain ⟨pre, hpre, _⟩ := (restorePhase0_finished fs sp cl).1 ho0
    rw [hrun, hpre, ← List.cons_append, List.getLast?_concat] at hlast
    simp at hlast
  | exn m0 =>
    have hcore : restore_run_core fs sp cl =
        (Event.progress 10 "Removing existing data..." :: (restorePhase0 fs sp cl).1,
          Outcome.exn m0) := by
      rw [restore_run_core_p0_stop fs sp cl (by rw [ho0]; simp), ho0]
    have hrun : restore_run fs sp cl =
        (Event.progress 10 "Removing existing data..." :: (restorePhase0 fs sp cl).1) ++
          [Event.finished false m0] := by
      rw [restore_run_of_exn fs sp cl m0 (by rw [hcore]), hcore]
    have hpc : pcts (restore_run fs sp cl) = [10] := by
      rw [hrun, pcts_append, pcts_cons_progress, restorePhase0_pcts fs sp cl,
        pcts_fin_singleton]
      rfl
    refine ⟨by rw [hpc]; exact List.pairwise_singleton _ _,
      by rw [hpc]; intro p hp; simp at hp; omega, fun m hlast => ?_⟩
    rw [hrun, List.getLast?_concat] at hlast
    simp at hlast
  | ok =>
    have hP1 := restorePhase1_pcts fs sp (restorePhase0 fs sp cl).2.1
    cases ho1 : (restorePhase1 fs sp (restorePhase0 fs sp cl).2.1).2.2 with
    | returned =>
      have hcore : restore_run_core fs sp cl =
          ((Event.progress 10 "Removing existing data..." ::
            (restorePhase0 fs sp cl).1) ++
            Event.progress 30 "Restoring data..." ::
              (restorePhase1 fs sp (restorePhase0 fs sp cl).2.1).1,
            Outcome.returned) := by
        rw [restore_run_core_p1_stop fs sp cl ho0 (by rw [ho1]; simp), ho1]
      have hrun : restore_run fs sp cl =
          (Event.progress 10 "Removing existing data..." :: (restorePhase0 fs sp cl).1) ++
            Event.progress 30 "Restoring data..." ::
              (restorePhase1 fs sp (restorePhase0 fs sp cl).2.1).1 := by
        rw [restore_run_of_returned fs sp cl (by rw [hcore]), hcore]
      have hpc : pcts (restore_run fs sp cl) =
          [10] ++ ([30] ++ pcts (restorePhase1 fs sp (restorePhase0 fs sp cl).2.1).1) := by
        rw [hrun, pcts_append, pcts_cons_progress, pcts_cons_progress,
          restorePhase0_pcts fs sp cl]
        rfl
      refine ⟨?_, ?_, fun m hlast => ?_⟩
      · rw [hpc]
        refine pairwise_le_append2 _ _ 10 (List.pairwise_singleton _ _) ?_
          (by intro a ha; simp at ha; omega) ?_
        · refine pairwise_le_append2 _ _ 30 (List.pairwise_singleton _ _) hP1.1
            (by intro a ha; simp at ha; omega) (fun b hb => (hP1.2 b hb).1)
        · intro b hb
          rcases List.mem_append.mp hb with h | h
          · simp at h; omega
          · exact le_trans (by omega) (hP1.2 b h).1
      · rw [hpc]
        intro p hp
        rcases List.mem_append.mp hp with h | h
        · simp at h; omega
        · rcases List.mem_append.mp h with h2 | h2
          · simp at h2; omega
          · exact (hP1.2 p h2).2.trans (by omega)
      · obtain ⟨pre, hpre, _⟩ := (restorePhase1_finished fs sp
          (restorePhase0 fs sp cl).2.1).1 ho1
        rw [hrun, hpre, ← List.cons_append, ← List.append_assoc,
          List.getLast?_concat] at hlast
        simp at hlast
    | exn m0 =>
      have hcore : restore_run_core fs sp cl =
          ((Event.progress 10 "Removing existing data..." ::
            (restorePhase0 fs sp cl).1) ++
            Event.progress 30 "Restoring data..." ::
              (restorePhase1 fs sp (restorePhase0 fs sp cl).2.1).1,
            Outcome.exn m0) := by
        rw [restore_run_core_p1_stop fs sp cl ho0 (by rw [ho1]; simp), ho1]
      have hrun : restore_run fs sp cl =
          ((Event.progress 10 "Removing existing data..." :: (restorePhase0 fs sp cl).1) ++
            Event.progress 30 "Restoring data..." ::
              (restorePhase1 fs sp (restorePhase0 fs sp cl).2.1).1) ++
            [Event.finished false m0] := by
        rw [restore_run_of_exn fs sp cl m0 (by rw [hcore]), hcore]
      have hpc : pcts (restore_run fs sp cl) =
          [10] ++ ([30] ++ pcts (restorePhase1 fs sp (restorePhase0 fs sp cl).2.1).1) := by
        rw [hrun, pcts_append, pcts_append, pcts_cons_progress, pcts_cons_progress,
          restorePhase0_pcts fs sp cl, pcts_fin_singleton, List.append_nil]
        rfl
      refine ⟨?_, ?_, fun m hlast => ?_⟩
      · rw [hpc]
        refine pairwise_le_append2 _ _ 10 (List.pairwise_singleton _ _) ?_
          (by intro a ha; simp at ha; omega) ?_
        · refine pairwise_le_append2 _ _ 30 (List.pairwise_singleton _ _) hP1.1
            (by intro a ha; simp at ha; omega) (fun b hb => (hP1.2 b hb).1)
        · intro b hb
          rcases List.mem_append.mp hb with h | h
          · simp at h; omega
          · exact le_trans (by omega) (hP1.2 b h).1
      · rw [hpc]
        intro p hp
        rcases List.mem_append.mp hp with h | h
        · simp at h; omega
        · rcases List.mem_append.mp h with h2 | h2
          · simp at h2; omega
          · exact (hP1.2 p h2).2.trans (by omega)
      · rw [hrun, List.getLast?_concat] at hlast
        simp at hlast
    | ok =>
      have hP2 := restorePhase2_pcts fs sp
        (restorePhase1 fs sp (restorePhase0 fs sp cl).2.1).2.1
      cases ho2 : (restorePhase2 fs sp
          (restorePhase1 fs sp (restorePhase0 fs sp cl).2.1).2.1).2 with
      | returned =>
        have hcore := restore_run_core_p2_stop fs sp cl ho0 ho1 (by rw [ho2]; simp)
        rw [ho2] at hcore
        have hrun : restore_run fs sp cl =
            ((Event.progress 10 "Removing existing data..." ::
              (restorePhase0 fs sp cl).1) ++
              Event.progress 30 "Restoring data..." ::
                (restorePhase1 fs sp (restorePhase0 fs sp cl).2.1).1) ++
              (restorePhase2 fs sp
                (restorePhase1 fs sp (restorePhase0 fs sp cl).2.1).2.1).1 := by
          rw [restore_run_of_returned fs sp cl (by rw [hcore]), hcore]
        have hpc : pcts (restore_run fs sp cl) =
            [10] ++ ([30] ++
              (pcts (restorePhase1 fs sp (restorePhase0 fs sp cl).2.1).1 ++
                pcts (restorePhase2 fs sp
                  (restorePhase1 fs sp (restorePhase0 fs sp cl).2.1).2.1).1)) := by
          rw [hrun, pcts_append, pcts_append, pcts_cons_progress, pcts_cons_progress,
            restorePhase0_pcts fs sp cl]
          simp
        refine ⟨?_, ?_, fun m hlast => ?_⟩
        · rw [hpc]
          refine pairwise_le_append2 _ _ 10 (List.pairwise_singleton _ _) ?_
            (by intro a ha; simp at ha; omega) ?_
          · refine pairwise_le_append2 _ _ 30 (List.pairwise_singleton _ _) ?_
              (by intro a ha; simp at ha; omega) ?_
            · exact pairwise_le_append2 _ _ 80 hP1.1 hP2.1
                (fun a ha => (hP1.2 a ha).2) (fun b hb => (hP2.2 b hb).1)
            · intro b hb
              rcases List.mem_append.mp hb with h | h
              · exact (hP1.2 b h).1
              · exact le_trans (by omega) (hP2.2 b h).1
          · intro b hb
            rcases List.mem_append.mp hb with h | h
            · simp at h; omega
            · rcases List.mem_append.mp h with h2 | h2
              · exact le_trans (by omega) (hP1.2 b h2).1
              · exact le_trans (by omega) (hP2.2 b h2).1
        · rw [hpc]
          intro p hp
          rcases List.mem_append.mp hp with h | h
          · simp at h; omega
          · rcases List.mem_append.mp h with h2 | h2
            · simp at h2; omega
            · rcases List.mem_append.mp h2 with h3 | h3
              · exact (hP1.2 p h3).2.trans (by omega)
              · exact (hP2.2 p h3).2.trans (by omega)
        · obtain ⟨pre, hpre, _⟩ := (restorePhase2_finished fs sp
            (restorePhase1 fs sp (restorePhase0 fs sp cl).2.1).2.1).1 ho2
          rw [hrun, hpre, ← List.append_assoc, List.getLast?_concat] at hlast
          simp at hlast
      | exn m0 =>
        have hcore := restore_run_core_p2_stop fs sp cl ho0 ho1 (by rw [ho2]; simp)
        rw [ho2] at hcore
        have hrun : restore_run fs sp cl =
            (((Event.progress 10 "Removing existing data..." ::
              (restorePhase0 fs sp cl).1) ++
              Event.progress 30 "Restoring data..." ::
                (restorePhase1 fs sp (restorePhase0 fs sp cl).2.1).1) ++
              (restorePhase2 fs sp
                (restorePhase1 fs sp (restorePhase0 fs sp cl).2.1).2.1).1) ++
              [Event.finished false m0] := by
          rw [restore_run_of_exn fs sp cl m0 (by rw [hcore]), hcore]
        have hpc : pcts (restore_run fs sp cl) =
            [10] ++ ([30] ++
              (pcts (restorePhase1 fs sp (restorePhase0 fs sp cl).2.1).1 ++
                pcts (restorePhase2 fs sp
                  (restorePhase1 fs sp (restorePhase0 fs sp cl).2.1).2.1).1)) := by
          rw [hrun, pcts_append, pcts_append, pcts_append, pcts_cons_progress,
            pcts_cons_progress, restorePhase0_pcts fs sp cl, pcts_fin_singleton]
          simp
        refine ⟨?_, ?_, fun m hlast => ?_⟩
        · rw [hpc]
          refine pairwise_le_append2 _ _ 10 (List.pairwise_singleton _ _) ?_
            (by intro a ha; simp at ha; omega) ?_
          · refine pairwise_le_append2 _ _ 30 (List.pairwise_singleton _ _) ?_
              (by intro a ha; simp at ha; omega) ?_
            · exact pairwise_le_append2 _ _ 80 hP1.1 hP2.1
                (fun a ha => (hP1.2 a ha).2) (fun b hb => (hP2.2 b hb).1)
            · intro b hb
              rcases List.mem_append.mp hb with h | h
              · exact (hP1.2 b h).1
              · exact le_trans (by omega) (hP2.2 b h).1
          · intro b hb
            rcases List.mem_append.mp hb with h | h
            · simp at h; omega
            · rcases List.mem_append.mp h with h2 | h2
              · exact le_trans (by omega) (hP1.2 b h2).1
              · exact le_trans (by omega) (hP2.2 b h2).1
        · rw [hpc]
          intro p hp
          rcases List.mem_append.mp hp with h | h
          · simp at h; omega
          · rcases List.mem_append.mp h with h2 | h2
            · simp at h2; omega
            · rcases List.mem_append.mp h2 with h3 | h3
              · exact (hP1.2 p h3).2.trans (by omega)
              · exact (hP2.2 p h3).2.trans (by omega)
        · rw [hrun, List.getLast?_concat] at hlast
          simp at hlast
      | ok =>
        have hcore := restore_run_core_all_ok fs sp cl ho0 ho1 ho2
        have hrun : restore_run fs sp cl =
            ((Event.progress 10 "Removing existing data..." ::
              (restorePhase0 fs sp cl).1) ++
              Event.progress 30 "Restoring data..." ::
                (restorePhase1 fs sp (restorePhase0 fs sp cl).2.1).1) ++
              (restorePhase2 fs sp
                (restorePhase1 fs sp (restorePhase0 fs sp cl).2.1).2.1).1 ++
              [Event.progress 100 "Restore complete!",
                Event.finished true "Restore complete"] := by
          rw [restore_run_of_ok fs sp cl (by rw [hcore]), hcore]
        have hpc : pcts (restore_run fs sp cl) =
            ([10] ++ ([30] ++
              (pcts (restorePhase1 fs sp (restorePhase0 fs sp cl).2.1).1 ++
                pcts (restorePhase2 fs sp
                  (restorePhase1 fs sp (restorePhase0 fs sp cl).2.1).2.1).1))) ++
              [100] := by
          rw [hrun, pcts_append, pcts_append, pcts_append, pcts_cons_progress,
            pcts_cons_progress, restorePhase0_pcts fs sp cl, pcts_tail_restore]
          simp
        refine ⟨?_, ?_, fun m _ => by rw [hpc]; exact List.getLast?_concat _⟩
        · rw [hpc]
          refine pairwise_le_append2 _ _ 95 ?_ (List.pairwise_singleton _ _) ?_
            (by intro b hb; simp at hb; omega)
          · refine pairwise_le_append2 _ _ 10 (List.pairwise_singleton _ _) ?_
              (by intro a ha; simp at ha; omega) ?_
            · refine pairwise_le_append2 _ _ 30 (List.pairwise_singleton _ _) ?_
                (by intro a ha; simp at ha; omega) ?_
              · exact pairwise_le_append2 _ _ 80 hP1.1 hP2.1
                  (fun a ha => (hP1.2 a ha).2) (fun b hb => (hP2.2 b hb).1)
              · intro b hb
                rcases List.mem_append.mp hb with h | h
                · exact (hP1.2 b h).1
                · exact le_trans (by omega) (hP2.2 b h).1
            · intro b hb
              rcases List.mem_append.mp hb with h | h
              · simp at h; omega
              · rcases List.mem_append.mp h with h2 | h2
                · exact le_trans (by omega) (hP1.2 b h2).1
                · exact le_trans (by omega) (hP2.2 b h2).1
          · intro a ha
            rcases List.mem_append.mp ha with h | h
            · simp at h; omega
            · rcases List.mem_append.mp h with h2 | h2
              · simp at h2; omega
              · rcases List.mem_append.mp h2 with h3 | h3
                · exact (hP1.2 a h3).2.trans (by omega)
                · exact (hP2.2 a h3).2
        · rw [hpc]
          intro p hp
          rcases List.mem_append.mp hp with h | h
          · rcases List.mem_append.mp h with h2 | h2
            · simp at h2; omega
            · rcases List.mem_append.mp h2 with h3 | h3
              · simp at h3; omega
              · rcases List.mem_append.mp h3 with h4 | h4
                · exact (hP1.2 p h4).2.trans (by omega)
                · exact (hP2.2 p h4).2.trans (by omega)
          · simp at h; omega

/-- C2: within one worker run the emitted progress percent sequence is
monotonically non-decreasing, every percent lies in [0,100] (the lower
bound is inherent to the Nat embedding), and on a successful run — one
whose terminal event is finished(true, _) — the final emitted percent is
exactly 100. -/
theorem C2_progress_monotone (fs : FS) (bsp : BackupSpec) (rsp : RestoreSpec)
    (clb clr : Option Nat) :
    (List.Pairwise (· ≤ ·) (pcts (backup_run fs bsp clb)) ∧
      (∀ p ∈ pcts (backup_run fs bsp clb), p ≤ 100) ∧
      (∀ m, (backup_run fs bsp clb).getLast? = some (Event.finished true m) →
        (pcts (backup_run fs bsp clb)).getLast? = some 100)) ∧
    (List.Pairwise (· ≤ ·) (pcts (restore_run fs rsp clr)) ∧
      (∀ p ∈ pcts (restore_run fs rsp clr), p ≤ 100) ∧
      (∀ m, (restore_run fs rsp clr).getLast? = some (Event.finished true m) →
        (pcts (restore_run fs rsp clr)).getLast? = some 100)) :=
  ⟨backup_run_pcts fs bsp clb, restore_run_pcts fs rsp clr⟩

/-- Witness for C2: the concrete successful backup and restore fixtures end
in finished(true, _) and their final emitted percent is 100. -/
theorem C2_progress_monotone_witness :
    ((backup_run wfsB wspB none).getLast? =
      some (Event.finished true "Backup complete") ∧
      (pcts (backup_run wfsB wspB none)).getLast? = some 100) ∧
    ((restore_run wfsR wspR none).getLast? =
      some (Event.finished true "Restore complete") ∧
      (pcts (restore_run wfsR wspR none)).getLast? = some 100) := by
  refine ⟨⟨by decide, ?_⟩, ⟨by decide, ?_⟩⟩
  · exact (C2_progress_monotone wfsB wspB wspR none none).1.2.2
      "Backup complete" (by decide)
  · exact (C2_progress_monotone wfsR wspB wspR none none).2.2.2
      "Restore complete" (by decide)

/-! ## Outcome and membership lemmas for specific runs -/

theorem workerLoop_ok_of_steps_ok {σ α : Type}
    (step : Nat → σ → α → List Event × σ × Outcome)
    (hok : ∀ i s x, (step i s x).2.2 = Outcome.ok) :
    ∀ (l : List α) (i : Nat) (s : σ),
      (workerLoop step l i s none).2.2 = Outcome.ok := by
  intro l
  induction l with
  | nil =>
    intro i s
    rw [workerLoop_nil]
  | cons x rest ih =>
    intro i s
    rw [workerLoop_cons_ok step x rest i s none cancelNow_none (hok i s x)]
    exact ih (i + 1) ((step i s x).2.1)

theorem backupItemStep_ok (fs : FS) (a b : String) (total i : Nat) (s : Unit)
    (it : TransferItem) (hcf : ∀ p, fs.copyFails p = none) :
    (backupItemStep fs a b total i s it).2.2 = Outcome.ok := by
  by_cases hp : it.path = ""
  · simp [backupItemStep, hp]
  · by_cases he : fs.pathExists (joinPath a it.path)
    · simp [backupItemStep, hp, he, hcf (joinPath a it.path)]
    · by_cases hop : it.optional <;> simp [backupItemStep, hp, he, hop]

theorem backupFallbackStep_ok (fs : FS) (a b : String) (total i : Nat) (s : Unit)
    (name : String) (hcf : ∀ p, fs.copyFails p = none) :
    (backupFallbackStep fs a b total i s name).2.2 = Outcome.ok := by
  simp [backupFallbackStep, hcf (joinPath a name)]

theorem backupPhase1_ok (fs : FS) (sp : BackupSpec) (hcf : ∀ p, fs.copyFails p = none) :
    (backupPhase1 fs sp none).2.2 = Outcome.ok := by
  by_cases hit : sp.backupItems ≠ []
  · simp only [backupPhase1, if_pos hit]
    exact workerLoop_ok_of_steps_ok _
      (fun i s x => backupItemStep_ok fs sp.sourcePath sp.backupFolder
        sp.backupItems.length i s x hcf)
      sp.backupItems 0 ()
  · simp only [backupPhase1, if_neg hit]
    exact workerLoop_ok_of_steps_ok _
      (fun i s x => backupFallbackStep_ok fs sp.sourcePath sp.backupFolder
        (fs.listDir sp.sourcePath).length i s x hcf)
      (fs.listDir sp.sourcePath) 0 ()

theorem backupAddonsLoop_ok (fs : FS) (dir : String) (total : Nat) :
    ∀ (l : List String) (j : Nat) (nm : Option String),
      (nm = none → l = [] ∨ fs.pathExists (l.headD "") = true) →
      (workerLoop (backupAddonStep fs dir total) l j nm none).2.2 = Outcome.ok := by
  intro l
  induction l with
  | nil =>
    intro j nm _
    rw [workerLoop_nil]
  | cons a rest ih =>
    intro j nm hsafe
    by_cases hex : fs.pathExists a
    · have hstep : (backupAddonStep fs dir total j nm a).2.2 = Outcome.ok := by
        cases hcf : fs.copyFails a <;> simp [backupAddonStep, hex, hcf]
      rw [workerLoop_cons_ok _ a rest j nm none cancelNow_none hstep]
      apply ih (j + 1)
      intro hcontra
      have hsome : (backupAddonStep fs dir total j nm a).2.1 = some (basename a) := by
        cases hcf : fs.copyFails a <;> simp [backupAddonStep, hex, hcf]
      rw [hsome] at hcontra
      exact absurd hcontra (by simp)
    · cases nm with
      | none =>
        rcases hsafe rfl with h | h
        · simp at h
        · simp at h
          exact absurd h hex
      | some an =>
        have hstep : (backupAddonStep fs dir total j (some an) a).2.2 = Outcome.ok := by
          simp [backupAddonStep, hex]
        rw [workerLoop_cons_ok _ a rest j (some an) none cancelNow_none hstep]
        apply ih (j + 1)
        intro hcontra
        have hsome : (backupAddonStep fs dir total j (some an) a).2.1 = some an := by
          simp [backupAddonStep, hex]
        rw [hsome] at hcontra
        exact absurd hcontra (by simp)

theorem backupPhase2_ok (fs : FS) (sp : BackupSpec)
    (haddon : sp.addonPaths = [] ∨ fs.pathExists (sp.addonPaths.headD "") = true) :
    (backupPhase2 fs sp none).2 = Outcome.ok := by
  by_cases had : sp.addonPaths ≠ []
  · simp only [backupPhase2, if_pos had]
    exact backupAddonsLoop_ok fs (joinPath sp.backupFolder "_addons")
      sp.addonPaths.length sp.addonPaths 0 none (fun _ => haddon)
  · simp only [backupPhase2, if_neg had]

theorem backupItemsLoop_skip_mem (fs : FS) (a b : String) (total : Nat)
    (hcf : ∀ p, fs.copyFails p = none) (it : TransferItem) (hne : it.path ≠ "")
    (hmiss : fs.pathExists (joinPath a it.path) = false) (hopt : it.optional = false) :
    ∀ (l : List TransferItem) (i : Nat), it ∈ l →
      Event.log ("  [SKIP] " ++ it.path ++ " (not found)") ∈
        (workerLoop (backupItemStep fs a b total) l i () none).1 := by
  intro l
  induction l with
  | nil =>
    intro i h
    simp at h
  | cons x rest ih =>
    intro i hmem
    rw [workerLoop_cons_ok _ x rest i () none cancelNow_none
      (backupItemStep_ok fs a b total i () x hcf)]
    rcases List.mem_cons.mp hmem with heq | hmem2
    · subst heq
      apply List.mem_cons_of_mem
      apply List.mem_append_left
      simp [backupItemStep, hne, hmiss, hopt]
    · exact List.mem_cons_of_mem _ (List.mem_append_right _ (ih (i + 1) hmem2))

theorem backupItemsLoop_copy_mem (fs : FS) (a b : String) (total : Nat)
    (hcf : ∀ p, fs.copyFails p = none) (it : TransferItem) (hne : it.path ≠ "")
    (hex : fs.pathExists (joinPath a it.path) = true) :
    ∀ (l : List TransferItem) (i : Nat), it ∈ l →
      Event.copy (joinPath a it.path) (joinPath b it.path) ∈
        (workerLoop (backupItemStep fs a b total) l i () none).1 := by
  intro l
  induction l with
  | nil =>
    intro i h
    simp at h
  | cons x rest ih =>
    intro i hmem
    rw [workerLoop_cons_ok _ x rest i () none cancelNow_none
      (backupItemStep_ok fs a b total i () x hcf)]
    rcases List.mem_cons.mp hmem with heq | hmem2
    · subst heq
      apply List.mem_cons_of_mem
      apply List.mem_append_left
      simp [backupItemStep, hne, hex, hcf (joinPath a it.path)]
    · exact List.mem_cons_of_mem _ (List.mem_append_right _ (ih (i + 1) hmem2))

/-- C3 counterexample: an item whose relativePath is empty is silently
skipped by the `if not item_path: continue` guard of the source, so a
required item whose source path (sourceRoot joined with "") does not
exist produces no "[SKIP] <path> (not found)" log line at all, while the
operation still succeeds — the claim's promised log line is absent. -/
theorem C3_empty_path_counterexample :
    (⟨"", false⟩ : TransferItem) ∈ c3sp.backupItems ∧
    c3fs.pathExists (joinPath c3sp.sourcePath "") = false ∧
    Event.log ("  [SKIP] " ++ "" ++ " (not found)") ∉ backup_run c3fs c3sp none ∧
    (backup_run c3fs c3sp none).getLast? =
      some (Event.finished true "Backup complete") := by
  refine ⟨by decide, by decide, by decide, by decide⟩

/-- C3 amended: in a backup run, a TransferItem with a non-empty
relativePath and optional = false whose source path does not exist
produces the "[SKIP] <path> (not found)" log line, the loop continues,
and — absent any other failure (no copy exceptions, no cancellation, and
an addon phase that does not trip the unbound addon_name bug) — the
operation still ends with finished(true, "Backup complete"); items with
an empty relativePath are silently skipped without any log line. -/
theorem C3_missing_item_skipped (fs : FS) (sp : BackupSpec) (it : TransferItem)
    (hmem : it ∈ sp.backupItems) (hne : it.path ≠ "")
    (hmiss : fs.pathExists (joinPath sp.sourcePath it.path) = false)
    (hopt : it.optional = false)
    (hcf : ∀ p, fs.copyFails p = none)
    (haddon : sp.addonPaths = [] ∨ fs.pathExists (sp.addonPaths.headD "") = true) :
    Event.log ("  [SKIP] " ++ it.path ++ " (not found)") ∈ backup_run fs sp none ∧
    (backup_run fs sp none).getLast? =
      some (Event.finished true "Backup complete") := by
  have hit : sp.backupItems ≠ [] := by
    intro h
    rw [h] at hmem
    simp at hmem
  have ho1 := backupPhase1_ok fs sp hcf
  have hfcl := backupPhase1_none_cl fs sp
  have ho2 : (backupPhase2 fs sp ((backupPhase1 fs sp none).2.1)).2 = Outcome.ok := by
    rw [hfcl]
    exact backupPhase2_ok fs sp haddon
  have hcore := backup_run_core_all_ok fs sp none ho1 ho2
  have hrun : backup_run fs sp none = (backupPhase1 fs sp none).1 ++
      (backupPhase2 fs sp ((backupPhase1 fs sp none).2.1)).1 ++
      [Event.progress 100 "Backup complete!",
        Event.finished true "Backup complete"] := by
    rw [backup_run_of_ok fs sp none (by rw [hcore]), hcore]
  constructor
  · rw [hrun]
    apply List.mem_append_left
    apply List.mem_append_left
    simp only [backupPhase1, if_pos hit]
    exact List.mem_cons_of_mem _
      (backupItemsLoop_skip_mem fs sp.sourcePath sp.backupFolder
        sp.backupItems.length hcf it hne hmiss hopt sp.backupItems 0 hmem)
  · rw [hrun, List.getLast?_append]
    simp

/-- Witness for C3: the fixture's required item "miss" has no source, is
logged as skipped, and the backup still finishes successfully. -/
theorem C3_missing_item_skipped_witness :
    Event.log ("  [SKIP] " ++ "miss" ++ " (not found)") ∈ backup_run wfsB wspB none ∧
    (backup_run wfsB wspB none).getLast? =
      some (Event.finished true "Backup complete") :=
  C3_missing_item_skipped wfsB wspB ⟨"miss", false⟩ (by decide) (by decide)
    (by decide) (by decide) (fun _ => rfl) (Or.inr (by decide))

/-- The backup addon loop raises the unbound addon_name error at its very
first iteration when that addon path does not exist: the progress
emission reads a local that has never been assigned. -/
theorem backupAddonsLoop_first_missing (fs : FS) (dir : String) (total : Nat)
    (a : String) (rest : List String) (hmiss : fs.pathExists a = false) :
    workerLoop (backupAddonStep fs dir total) (a :: rest) 0 none none =
      ([Event.check], none, Outcome.exn unboundAddonNameMsg) := by
  have hstop : (backupAddonStep fs dir total 0 none a).2.2 =
      Outcome.exn unboundAddonNameMsg := by
    simp [backupAddonStep, hmiss]
  rw [workerLoop_cons_stop _ a rest 0 none none cancelNow_none (by rw [hstop]; simp)]
  have hev : (backupAddonStep fs dir total 0 none a).1 = [] := by
    simp [backupAddonStep, hmiss]
  rw [hev, hstop]
  rfl

/-- C10: a backup run with a non-empty addonPaths list whose first addon
path does not exist reads the unassigned local addon_name in the
addon-phase progress emission; the resulting exception escapes to the
top-level handler, so the run ends with finished(false, message) even
though every declared item with an existing source was copied. -/
theorem C10_unbound_addon_name (fs : FS) (sp : BackupSpec) (a : String)
    (rest : List String) (haddons : sp.addonPaths = a :: rest)
    (hmiss : fs.pathExists a = false)
    (hcf : ∀ p, fs.copyFails p = none) :
    (backup_run_core fs sp none).2 = Outcome.exn unboundAddonNameMsg ∧
    (backup_run fs sp none).getLast? =
      some (Event.finished false unboundAddonNameMsg) ∧
    (∀ it ∈ sp.backupItems, it.path ≠ "" →
      fs.pathExists (joinPath sp.sourcePath it.path) = true →
      Event.copy (joinPath sp.sourcePath it.path) (joinPath sp.backupFolder it.path) ∈
        backup_run fs sp none) := by
  have ho1 := backupPhase1_ok fs sp hcf
  have hfcl := backupPhase1_none_cl fs sp
  have ho2 : (backupPhase2 fs sp ((backupPhase1 fs sp none).2.1)).2 =
      Outcome.exn unboundAddonNameMsg := by
    rw [hfcl]
    have had : sp.addonPaths ≠ [] := by rw [haddons]; simp
    simp only [backupPhase2, if_pos had]
    rw [haddons]
    rw [backupAddonsLoop_first_missing fs (joinPath sp.backupFolder "_addons")
      (a :: rest).length a rest hmiss]
  have hcore := backup_run_core_p2_stop fs sp none ho1 (by rw [ho2]; simp)
  rw [ho2] at hcore
  have hcout : (backup_run_core fs sp none).2 = Outcome.exn unboundAddonNameMsg := by
    rw [hcore]
  have hrun : backup_run fs sp none = ((backupPhase1 fs sp none).1 ++
      (backupPhase2 fs sp ((backupPhase1 fs sp none).2.1)).1) ++
      [Event.finished false unboundAddonNameMsg] := by
    rw [backup_run_of_exn fs sp none unboundAddonNameMsg hcout, hcore]
  refine ⟨hcout, ?_, ?_⟩
  · rw [hrun, List.getLast?_concat]
  · intro it hmem hne hex
    have hit : sp.backupItems ≠ [] := by
      intro h
      rw [h] at hmem
      simp at hmem
    rw [hrun]
    apply List.mem_append_left
    apply List.mem_append_left
    simp only [backupPhase1, if_pos hit]
    exact List.mem_cons_of_mem _
      (backupItemsLoop_copy_mem fs sp.sourcePath sp.backupFolder
        sp.backupItems.length hcf it hne hex sp.backupItems 0 hmem)

/-- Witness for C10: the fixture whose single addon path "AX" is missing
fails with the unbound addon_name message after copying its one existing
item. -/
theorem C10_unbound_addon_name_witness :
    (backup_run wfsB wspB10 none).getLast? =
      some (Event.finished false unboundAddonNameMsg) ∧
    Event.copy (joinPath "S" "u") (joinPath "B" "u") ∈ backup_run wfsB wspB10 none := by
  have h := C10_unbound_addon_name wfsB wspB10 "AX" [] rfl (by decide) (fun _ => rfl)
  exact ⟨h.2.1, h.2.2 ⟨"u", false⟩ (by decide) (by decide) (by decide)⟩

/-- C6 counterexample: the pre-copy deletion loop of the restore worker
iterates over every entry of the destination root with no exception for
the reserved "_addons" subfolder — that filter applies only to the later
listing of the backup folder — so an "_addons" entry under the
destination is deleted like any other. -/
theorem C6_addons_deleted_counterexample :
    c6fs.listDir c6sp.targetPath = ["_addons", "x"] ∧
    Event.delete (joinPath "T" "_addons") ∈ restore_run c6fs c6sp none := by
  refine ⟨by decide, by decide⟩

/-- The uncancelled deletion loop: one token read per entry, then either
the permission warning or the delete effect, in directory order; it never
fails. -/
theorem restoreDeleteLoop_eq (fs : FS) (target : String) :
    ∀ (l : List String) (i : Nat),
      workerLoop (restoreDeleteStep fs target) l i () none =
        ((l.map (fun name =>
          Event.check ::
            (if fs.deletePermError (joinPath target name) then
              [Event.log ("  [WARN] Cannot delete: " ++ name)]
            else [Event.delete (joinPath target name)]))).flatten,
          none, Outcome.ok) := by
  intro l
  induction l with
  | nil =>
    intro i
    rw [workerLoop_nil]
    rfl
  | cons x rest ih =>
    intro i
    have hok : (restoreDeleteStep fs target i () x).2.2 = Outcome.ok := by
      by_cases hperm : fs.deletePermError (joinPath target x) <;>
        simp [restoreDeleteStep, hperm]
    rw [workerLoop_cons_ok _ x rest i () none cancelNow_none hok]
    simp only [cancelStep_none]
    have hunit : (restoreDeleteStep fs target i () x).2.1 = () := rfl
    rw [hunit, ih (i + 1)]
    by_cases hperm : fs.deletePermError (joinPath target x) <;>
      simp [restoreDeleteStep, hperm]

/-- C6 amended: the pre-copy deletion phase of a restore run removes (or,
on a PermissionError, logs a warning for) every entry directly under the
destination root, including any "_addons" entry — the "_addons" exclusion
applies to the copy phase's listing of the backup folder, not to the
deletion — and the run continues into the copy phase afterwards
(permission errors never abort it). -/
theorem C6_restore_deletion (fs : FS) (sp : RestoreSpec)
    (hex : fs.pathExists sp.targetPath = true) :
    ∃ rest, restore_run fs sp none =
      Event.progress 10 "Removing existing data..." ::
        (((fs.listDir sp.targetPath).map (fun name =>
          Event.check ::
            (if fs.deletePermError (joinPath sp.targetPath name) then
              [Event.log ("  [WARN] Cannot delete: " ++ name)]
            else [Event.delete (joinPath sp.targetPath name)]))).flatten ++
        Event.progress 30 "Restoring data..." :: rest) := by
  have hp0 : restorePhase0 fs sp none =
      (((fs.listDir sp.targetPath).map (fun name =>
        Event.check ::
          (if fs.deletePermError (joinPath sp.targetPath name) then
            [Event.log ("  [WARN] Cannot delete: " ++ name)]
          else [Event.delete (joinPath sp.targetPath name)]))).flatten,
        none, Outcome.ok) := by
    simp only [restorePhase0, if_pos hex]
    exact restoreDeleteLoop_eq fs sp.targetPath (fs.listDir sp.targetPath) 0
  have ho0 : (restorePhase0 fs sp none).2.2 = Outcome.ok := by rw [hp0]
  have hev0 : (restorePhase0 fs sp none).1 =
      ((fs.listDir sp.targetPath).map (fun name =>
        Event.check ::
          (if fs.deletePermError (joinPath sp.targetPath name) then
            [Event.log ("  [WARN] Cannot delete: " ++ name)]
          else [Event.delete (joinPath sp.targetPath name)]))).flatten := by
    rw [hp0]
  cases ho1 : (restorePhase1 fs sp ((restorePhase0 fs sp none).2.1)).2.2 with
  | returned =>
    rw [restorePhase0_none_cl fs sp] at ho1
    exact absurd ho1 (restorePhase1_none_noret fs sp)
  | exn m =>
    have hcn := restore_run_core_p1_stop fs sp none ho0 (by rw [ho1]; simp)
    rw [ho1] at hcn
    refine ⟨(restorePhase1 fs sp ((restorePhase0 fs sp none).2.1)).1 ++
      [Event.finished false m], ?_⟩
    rw [restore_run_of_exn fs sp none m (by rw [hcn]), hcn, hev0]
    simp
  | ok =>
    cases ho2 : (restorePhase2 fs sp
        ((restorePhase1 fs sp ((restorePhase0 fs sp none).2.1)).2.1)).2 with
    | returned =>
      rw [restorePhase0_none_cl fs sp, restorePhase1_none_cl fs sp] at ho2
      exact absurd ho2 (restorePhase2_none_noret fs sp)
    | ok =>
      have hcn := restore_run_core_all_ok fs sp none ho0 ho1 ho2
      refine ⟨(restorePhase1 fs sp ((restorePhase0 fs sp none).2.1)).1 ++
        ((restorePhase2 fs sp
          ((restorePhase1 fs sp ((restorePhase0 fs sp none).2.1)).2.1)).1 ++
        [Event.progress 100 "Restore complete!",
          Event.finished true "Restore complete"]), ?_⟩
      rw [restore_run_of_ok fs sp none (by rw [hcn]), hcn, hev0]
      simp
    | exn m =>
      have hcn := restore_run_core_p2_stop fs sp none ho0 ho1 (by rw [ho2]; simp)
      rw [ho2] at hcn
      refine ⟨(restorePhase1 fs sp ((restorePhase0 fs sp none).2.1)).1 ++
        ((restorePhase2 fs sp
          ((restorePhase1 fs sp ((restorePhase0 fs sp none).2.1)).2.1)).1 ++
        [Event.finished false m]), ?_⟩
      rw [restore_run_of_exn fs sp none m (by rw [hcn]), hcn, hev0]
      simp

/-- Witness for C6: the deletion phase of the concrete restore fixture. -/
theorem C6_restore_deletion_witness :
    wfsR.pathExists wspR.targetPath = true ∧
    ∃ rest, restore_run wfsR wspR none =
      Event.progress 10 "Removing existing data..." ::
        (((wfsR.listDir wspR.targetPath).map (fun name =>
          Event.check ::
            (if wfsR.deletePermError (joinPath wspR.targetPath name) then
              [Event.log ("  [WARN] Cannot delete: " ++ name)]
            else [Event.delete (joinPath wspR.targetPath name)]))).flatten ++
        Event.progress 30 "Restoring data..." :: rest) :=
  ⟨by decide, C6_restore_deletion wfsR wspR (by decide)⟩
